import Mathlib

/-!
Verification development for the API test generation/execution backend
(src/backend/server.js).  The definitions below are a shallow embedding of
the server's data model and core functions: JSON values, the resilient
JSON extractor, the retry/backoff generation loop with its deterministic
fallback, the spec validation and patching step with its TTL cache, the
test executor / response validator, and the bounded-concurrency limiter.
-/

mutual

/-- JSON values as handled by the server, as a mutual inductive family
(so that recursion over arrays and objects stays structural).  Numbers are
exact rationals (JavaScript test inputs relevant here are decimal
literals). -/
inductive Json where
  | null : Json
  | bool : Bool → Json
  | num : Rat → Json
  | str : String → Json
  | arr : JsonArr → Json
  | obj : JsonObj → Json

/-- The elements of a JSON array. -/
inductive JsonArr where
  | nil : JsonArr
  | cons : Json → JsonArr → JsonArr

/-- The members of a JSON object, in property order. -/
inductive JsonObj where
  | nil : JsonObj
  | cons : String → Json → JsonObj → JsonObj

end

/-- Array elements as a Lean list. -/
def JsonArr.toList : JsonArr → List Json
  | .nil => []
  | .cons x rest => x :: rest.toList

/-- Array elements from a Lean list. -/
def JsonArr.ofList : List Json → JsonArr
  | [] => .nil
  | x :: rest => .cons x (JsonArr.ofList rest)

/-- Object members from a Lean association list. -/
def JsonObj.ofList : List (String × Json) → JsonObj
  | [] => .nil
  | (k, v) :: rest => .cons k v (JsonObj.ofList rest)

/-- Build an array value from a list. -/
def Json.mkArr (xs : List Json) : Json := .arr (JsonArr.ofList xs)

/-- Build an object value from an association list. -/
def Json.mkObj (fs : List (String × Json)) : Json := .obj (JsonObj.ofList fs)

/-- JavaScript truthiness of a JSON value (`undefined` is represented by
`Option.none` at use sites; `Json.null` is falsy like `null`). -/
def jsTruthy : Json → Bool
  | .null => false
  | .bool b => b
  | .num q => q.num ≠ 0
  | .str s => s ≠ ""
  | .arr _ => true
  | .obj _ => true

/-- Field lookup on an object (models `o.k` / `o?.k`); `none` for non-objects
and missing keys (JavaScript `undefined`). -/
def lookupField (k : String) : JsonObj → Option Json
  | .nil => none
  | .cons k' v rest => if k' = k then some v else lookupField k rest

/-- Model: `getField k j` models JavaScript property access `j?.[k]`. -/
def getField (k : String) : Json → Option Json
  | .obj fs => lookupField k fs
  | _ => none

/-- Update-or-append a key in an object's field list, preserving the position
of an existing key (JavaScript property-assignment semantics). -/
def insertField (k : String) (v : Json) : JsonObj → JsonObj
  | .nil => .cons k v .nil
  | .cons k' v' rest =>
      if k' = k then .cons k' v rest else .cons k' v' (insertField k v rest)

/-- Model: `setField o k v` models the strict-mode assignment `o[k] = v` on an
object (use sites guarantee `o` is an object). -/
def setField (o : Json) (k : String) (v : Json) : Json :=
  match o with
  | .obj fs => .obj (insertField k v fs)
  | j => j

/-- Remove a key from an object's field list (models `delete o[k]`). -/
def removeField (k : String) : JsonObj → JsonObj
  | .nil => .nil
  | .cons k' v' rest =>
      if k' = k then rest else .cons k' v' (removeField k rest)

/-- Model: `deleteField o k` models `delete o.k`. -/
def deleteField (o : Json) (k : String) : Json :=
  match o with
  | .obj fs => .obj (removeField k fs)
  | j => j

/-- Fields produced by a JavaScript object spread `\x7b ...j \x7d`: objects give
their own fields, strings give index-keyed single characters, arrays give
index-keyed elements, primitives give no fields. -/
def spreadFields : Json → JsonObj
  | .obj fs => fs
  | .str s => JsonObj.ofList
      ((s.toList.enum).map (fun p => (toString p.1, Json.str (String.singleton p.2))))
  | .arr xs => JsonObj.ofList ((xs.toList.enum).map (fun p => (toString p.1, p.2)))
  | _ => .nil

/-- Prepend an object member: if the key reappears later (a duplicate), its
first position is kept and the later value wins, as in JavaScript object
literals. -/
def consMember (k : String) (v : Json) (rest : JsonObj) : JsonObj :=
  match lookupField k rest with
  | some v' => .cons k v' (removeField k rest)
  | none => .cons k v rest

/-- JSON whitespace skipping (space, tab, newline, carriage return). -/
def skipWsL : List Char → List Char
  | [] => []
  | c :: cs => if c = ' ' ∨ c = '\t' ∨ c = '\n' ∨ c = '\r' then skipWsL cs else c :: cs

/-- Decimal digits to a natural number. -/
def digitsToNat (ds : List Char) : Nat :=
  ds.foldl (fun acc c => acc * 10 + (c.toNat - 48)) 0

/-- Take the maximal leading run of decimal digits. -/
def takeDigits : List Char → List Char × List Char
  | [] => ([], [])
  | c :: cs =>
      if c.isDigit then
        let p := takeDigits cs
        (c :: p.1, p.2)
      else ([], c :: cs)

/-- Hexadecimal digit test for `\u` escapes. -/
def isHexDigitChar (c : Char) : Bool :=
  c.isDigit ∨ ('a' ≤ c ∧ c ≤ 'f') ∨ ('A' ≤ c ∧ c ≤ 'F')

/-- Parse the body of a JSON string after the opening quote, handling the
standard escape sequences; raw control characters are rejected as in
`JSON.parse`. -/
def parseStringBody : List Char → Option (List Char × List Char)
  | [] => none
  | '"' :: rest => some ([], rest)
  | '\\' :: 'u' :: a :: b :: c :: d :: rest =>
      if isHexDigitChar a ∧ isHexDigitChar b ∧ isHexDigitChar c ∧ isHexDigitChar d then
        let hv := fun (ch : Char) =>
          if ch.isDigit then ch.toNat - 48
          else if 'a' ≤ ch ∧ ch ≤ 'f' then ch.toNat - 87 else ch.toNat - 55
        let code := ((hv a * 16 + hv b) * 16 + hv c) * 16 + hv d
        (parseStringBody rest).map (fun p => (Char.ofNat code :: p.1, p.2))
      else none
  | '\\' :: e :: rest =>
      let esc : Option Char :=
        if e = '"' then some '"'
        else if e = '\\' then some '\\'
        else if e = '/' then some '/'
        else if e = 'n' then some '\n'
        else if e = 't' then some '\t'
        else if e = 'r' then some '\r'
        else if e = 'b' then some (Char.ofNat 8)
        else if e = 'f' then some (Char.ofNat 12)
        else none
      match esc with
      | some ch => (parseStringBody rest).map (fun p => (ch :: p.1, p.2))
      | none => none
  | c :: rest =>
      if c.toNat < 32 then none
      else (parseStringBody rest).map (fun p => (c :: p.1, p.2))

/-- The exact rational `±(I + F/10^k) * 10^(±e)` of a JSON number's parts,
built with integer arithmetic and `mkRat`. -/
def ratFromParts (neg : Bool) (I F k : Nat) (esign : Bool) (e : Nat) : Rat :=
  let numAbs : Nat := (I * 10 ^ k + F) * (if esign then 1 else 10 ^ e)
  let den : Nat := 10 ^ k * (if esign then 10 ^ e else 1)
  mkRat (if neg then -(numAbs : Int) else (numAbs : Int)) den

/-- Parse a JSON number (sign, integer part without leading zeros, optional
fraction, optional exponent) into an exact rational. -/
def parseNumber (cs : List Char) : Option (Rat × List Char) :=
  let sgn : Bool × List Char :=
    match cs with
    | '-' :: rest => (true, rest)
    | _ => (false, cs)
  let ip := takeDigits sgn.2
  if ip.1 = [] then none
  else if ip.1.length > 1 ∧ ip.1.headI = '0' then none
  else
    let fp : List Char × List Char :=
      match ip.2 with
      | '.' :: rest => takeDigits rest
      | _ => ([], ip.2)
    if ip.2 ≠ fp.2 ∧ fp.1 = [] then none
    else
      match fp.2 with
      | 'e' :: rest | 'E' :: rest =>
          let es : Bool × List Char :=
            match rest with
            | '-' :: r => (true, r)
            | '+' :: r => (false, r)
            | _ => (false, rest)
          let ep := takeDigits es.2
          if ep.1 = [] then none
          else
            some (ratFromParts sgn.1 (digitsToNat ip.1) (digitsToNat fp.1) fp.1.length
                    es.1 (digitsToNat ep.1), ep.2)
      | _ =>
          some (ratFromParts sgn.1 (digitsToNat ip.1) (digitsToNat fp.1) fp.1.length
                  false 0, fp.2)

mutual

/-- Fuel-based recursive-descent parser for a JSON value, modelling
`JSON.parse` (which the server uses for direct decoding and inside the
extractor's strategies). -/
def parseV : Nat → List Char → Option (Json × List Char)
  | 0, _ => none
  | fuel + 1, cs =>
    match skipWsL cs with
    | 'n' :: 'u' :: 'l' :: 'l' :: rest => some (.null, rest)
    | 't' :: 'r' :: 'u' :: 'e' :: rest => some (.bool true, rest)
    | 'f' :: 'a' :: 'l' :: 's' :: 'e' :: rest => some (.bool false, rest)
    | '"' :: rest => (parseStringBody rest).map (fun p => (.str (String.mk p.1), p.2))
    | '[' :: rest =>
        (match skipWsL rest with
         | ']' :: rest' => some (.arr .nil, rest')
         | other => (parseItems fuel other).map (fun p => (.arr p.1, p.2)))
    | '{' :: rest =>
        (match skipWsL rest with
         | '}' :: rest' => some (.obj .nil, rest')
         | other => (parseMembers fuel other).map (fun p => (.obj p.1, p.2)))
    | other => (parseNumber other).map (fun p => (.num p.1, p.2))

/-- Parse the comma-separated items of a non-empty JSON array up to the
closing bracket. -/
def parseItems : Nat → List Char → Option (JsonArr × List Char)
  | 0, _ => none
  | fuel + 1, cs =>
    match parseV fuel cs with
    | none => none
    | some (v, rest) =>
      match skipWsL rest with
      | ',' :: rest' => (parseItems fuel rest').map (fun p => (.cons v p.1, p.2))
      | ']' :: rest' => some (.cons v .nil, rest')
      | _ => none

/-- Parse the comma-separated members of a non-empty JSON object up to the
closing brace; a duplicate key overwrites the earlier value in place, as in
JavaScript. -/
def parseMembers : Nat → List Char → Option (JsonObj × List Char)
  | 0, _ => none
  | fuel + 1, cs =>
    match skipWsL cs with
    | '"' :: rest =>
      (match parseStringBody rest with
       | none => none
       | some (kcs, rest₁) =>
         match skipWsL rest₁ with
         | ':' :: rest₂ =>
           (match parseV fuel rest₂ with
            | none => none
            | some (v, rest₃) =>
              match skipWsL rest₃ with
              | ',' :: rest₄ =>
                  (parseMembers fuel rest₄).map
                    (fun p => (consMember (String.mk kcs) v p.1, p.2))
              | '}' :: rest₄ => some (.cons (String.mk kcs) v .nil, rest₄)
              | _ => none)
         | _ => none)
    | _ => none

end

/-- Model: `Json.parse s` models `JSON.parse(s)`: the whole input (up to trailing
whitespace) must be consumed, otherwise the call throws (`none`). -/
def Json.parse (s : String) : Option Json :=
  match parseV (2 * s.length + 4) s.toList with
  | some (j, rest) => if skipWsL rest = [] then some j else none
  | none => none

/-- Join strings with commas (for JSON serialization). -/
def joinComma : List String → String
  | [] => ""
  | [s] => s
  | s :: rest => s ++ "," ++ joinComma rest

/-- Two-digit lowercase hexadecimal rendering (for control-character escapes). -/
def hex2 (n : Nat) : String :=
  let dig := fun (d : Nat) => String.singleton (if d < 10 then Char.ofNat (48 + d) else Char.ofNat (87 + d))
  dig (n / 16 % 16) ++ dig (n % 16)

/-- Escape one character as `JSON.stringify` does inside string literals. -/
def escapeJsonChar (c : Char) : String :=
  if c = '"' then "\\\""
  else if c = '\\' then "\\\\"
  else if c = '\n' then "\\n"
  else if c = '\r' then "\\r"
  else if c = '\t' then "\\t"
  else if c.toNat = 8 then "\\b"
  else if c.toNat = 12 then "\\f"
  else if c.toNat < 32 then "\\u00" ++ hex2 c.toNat
  else String.singleton c

/-- Quote and escape a string as `JSON.stringify` does. -/
def quoteJsonStr (s : String) : String :=
  "\"" ++ String.join (s.toList.map escapeJsonChar) ++ "\""

/-- Decimal rendering of a rational as JavaScript prints JSON numbers
(integers without a point, finite decimals as written). -/
def ratDecimalString (q : Rat) : String :=
  if q.den = 1 then toString q.num
  else
    match (List.range 30).find? (fun k => (q * ((10 : Rat) ^ (k + 1))).den = 1) with
    | some k =>
        let k := k + 1
        let n := (q * (10 : Rat) ^ k).num
        let a := n.natAbs
        let fs := toString (a % 10 ^ k)
        let fs := String.mk (List.replicate (k - fs.length) '0') ++ fs
        (if n < 0 then "-" else "") ++ toString (a / 10 ^ k) ++ "." ++ fs
    | none => toString q.num ++ "/" ++ toString q.den

mutual

/-- Serialization of one JSON value, modelling `JSON.stringify` (used by
the server to build cache keys and to scan error payloads for quota
information). -/
def stringifyV : Json → String
  | .null => "null"
  | .bool b => cond b "true" "false"
  | .num q => ratDecimalString q
  | .str s => quoteJsonStr s
  | .arr xs => "[" ++ stringifyItems xs ++ "]"
  | .obj fs => "\x7b" ++ stringifyMembers fs ++ "\x7d"

/-- Comma-joined serialization of array elements. -/
def stringifyItems : JsonArr → String
  | .nil => ""
  | .cons x .nil => stringifyV x
  | .cons x (.cons y rest) => stringifyV x ++ "," ++ stringifyItems (.cons y rest)

/-- Comma-joined serialization of object members. -/
def stringifyMembers : JsonObj → String
  | .nil => ""
  | .cons k v .nil => quoteJsonStr k ++ ":" ++ stringifyV v
  | .cons k v (.cons k' v' rest) =>
      quoteJsonStr k ++ ":" ++ stringifyV v ++ "," ++ stringifyMembers (.cons k' v' rest)

end

/-- Model: `Json.stringify j` models `JSON.stringify(j)`. -/
def Json.stringify (j : Json) : String := stringifyV j

/-- Head-anchored literal match of `pat` against `cs`. -/
def startsWithL : List Char → List Char → Bool
  | _, [] => true
  | [], _ :: _ => false
  | c :: cs, p :: ps => (c = p) && startsWithL cs ps

/-- Occurrence of `pat` anywhere in the character list. -/
def hasSubstrL (pat : List Char) : List Char → Bool
  | [] => startsWithL [] pat
  | c :: cs => startsWithL (c :: cs) pat || hasSubstrL pat cs

/-- Substring occurrence test (`/pat/.test(s)` for a literal pattern). -/
def containsStr (s pat : String) : Bool :=
  hasSubstrL pat.toList s.toList

/-- String prefix test (`s.startsWith(pat)`). -/
def startsWithStr (s pat : String) : Bool :=
  startsWithL s.toList pat.toList

/-- JavaScript-trimmed whitespace characters (the set relevant to the
server's ASCII inputs). -/
def wsChar (c : Char) : Bool :=
  c = ' ' || c = '\t' || c = '\n' || c = '\r'

/-- Trim leading and trailing whitespace from a character list. -/
def trimL (cs : List Char) : List Char :=
  ((cs.dropWhile (fun c => wsChar c)).reverse.dropWhile (fun c => wsChar c)).reverse

/-- Model: `s.trim()`. -/
def trimStr (s : String) : String :=
  String.mk (trimL s.toList)

/-- ASCII lowercasing (models `String.prototype.toLowerCase` on the ASCII
strings the server compares). -/
def lowerStr (s : String) : String :=
  String.mk (s.toList.map Char.toLower)

/-- Case-insensitive substring test (`/pat/i.test(s)`, `pat` lowercase). -/
def ciContains (s pat : String) : Bool :=
  containsStr (lowerStr s) pat

/-- The triple-backtick fence delimiter. -/
def backtickFence : String := "\x60\x60\x60"

/-- Remainder of the list after the first (leftmost) fence occurrence. -/
def afterFirstFence : List Char → Option (List Char)
  | [] => none
  | c :: cs =>
    if startsWithL (c :: cs) backtickFence.toList then some ((c :: cs).drop 3)
    else afterFirstFence cs

/-- The characters before the next fence occurrence (`none` when no fence
follows). -/
def beforeNextFence : List Char → Option (List Char)
  | [] => none
  | c :: cs =>
    if startsWithL (c :: cs) backtickFence.toList then some []
    else (beforeNextFence cs).map (fun l => c :: l)

/-- Interior of the first fenced code block: the regex
`\x60\x60\x60(?:json)?([\s\S]*?)\x60\x60\x60` matches iff a fence occurs and another fence
follows it, and lazily captures the text in between. -/
def fencedBlockInterior (text : String) : Option String :=
  match afterFirstFence text.toList with
  | none => none
  | some rest =>
    match beforeNextFence rest with
    | none => none
    | some interior => some (String.mk interior)

/-- Strip the optional `json` tag (case-insensitive) that the fence regex
consumes right after the opening fence. -/
def stripJsonTag (s : String) : String :=
  if lowerStr (s.take 4) = "json" then s.drop 4 else s

/-- Index of the first occurrence of a character (`indexOf`). -/
def firstIdxOf (cs : List Char) (c : Char) : Option Nat :=
  cs.findIdx? (· = c)

/-- Index of the last occurrence of a character (`lastIndexOf`). -/
def lastIdxOf (cs : List Char) (c : Char) : Option Nat :=
  match cs.reverse.findIdx? (· = c) with
  | some i => some (cs.length - 1 - i)
  | none => none

/-- Case-insensitive literal match at the head of a character list; returns
the remainder on success (`pat` given lowercase). -/
def matchCI (cs : List Char) (pat : List Char) : Option (List Char) :=
  if (cs.take pat.length).map Char.toLower = pat then some (cs.drop pat.length) else none

/-- Characters up to and including the first `]` (the lazy `\[[\s\S]*?\]`
capture after its opening bracket); `none` when no `]` follows. -/
def takeThroughRBracket : List Char → Option (List Char)
  | [] => none
  | ']' :: _ => some [']']
  | c :: rest => (takeThroughRBracket rest).map (fun l => c :: l)

/-- One attempted match of `"?testCases"?\s*:\s*(\[[\s\S]*?\])` (case
insensitive) anchored at the current position: the literal `testCases`,
an optional closing quote, optional whitespace, a colon, optional
whitespace, then the lazily captured bracketed text. -/
def tcMatchAt (cs : List Char) : Option (List Char) :=
  match matchCI cs ("testcases".toList) with
  | none => none
  | some rest₀ =>
    let rest₁ := match rest₀ with
      | '"' :: r => r
      | r => r
    match skipWsL rest₁ with
    | ':' :: r =>
      (match skipWsL r with
       | '[' :: r₂ => (takeThroughRBracket r₂).map (fun body => '[' :: body)
       | _ => none)
    | _ => none

/-- Leftmost match of the `testCases` regex over the whole text (the
optional opening quote does not affect the capture). -/
def scanTestCasesArr : List Char → Option (List Char)
  | [] => none
  | c :: rest =>
    match tcMatchAt (c :: rest) with
    | some cap => some cap
    | none => scanTestCasesArr rest

/-- Strategy 1 of the extractor (server.js lines 365-375): parse the
interior of the first triple-backtick fenced block (an optional `json` tag
is consumed), accepting a JSON array or an object with a `testCases` array
field. -/
def fenceStrategy (text : String) : Option (List Json) :=
  match fencedBlockInterior text with
  | some interior =>
    let cleanedText := trimStr (stripJsonTag interior)
    (match Json.parse cleanedText with
     | some (.arr xs) => some xs.toList
     | some j =>
       (match getField "testCases" j with
        | some tcs =>
          if jsTruthy tcs then
            (match tcs with
             | .arr xs => some xs.toList
             | _ => none)
          else none
        | none => none)
     | none => none)
  | none => none

/-- Strategy 2 of the extractor (server.js lines 378-388): parse the
substring from the first `[` to the last `]` inclusive (requiring the
latter to lie further right), accepting a JSON array. -/
def bracketStrategy (text : String) : Option (List Json) :=
  let cs := text.toList
  match firstIdxOf cs '[', lastIdxOf cs ']' with
  | some first, some last =>
    if first < last then
      (match Json.parse (String.mk ((cs.drop first).take (last + 1 - first))) with
       | some (.arr xs) => some xs.toList
       | _ => none)
    else none
  | _, _ => none

/-- Strategy 3 of the extractor (server.js lines 391-399): parse the array
captured by the non-greedy `testCases` regex. -/
def testCasesStrategy (text : String) : Option (List Json) :=
  match scanTestCasesArr text.toList with
  | none => none
  | some cap =>
    match Json.parse (String.mk cap) with
    | some (.arr xs) => some xs.toList
    | _ => none

/-- Model: `extractArrayFromText` (server.js lines 359-402): layered recovery of a
JSON array from unreliable model text; a falsy (empty) input returns null,
each strategy's failure falls through to the next, and `null` (`none`) is
returned when all three fail. -/
def extractArrayFromText (text : String) : Option (List Json) :=
  if text = "" then none
  else
    match fenceStrategy text with
    | some xs => some xs
    | none =>
      match bracketStrategy text with
      | some xs => some xs
      | none => testCasesStrategy text

/-- Outcome of one model invocation (`model.generateContent`): the response
text, or a thrown error. -/
structure JsError where
  message : String
  apiData : Option Json
  retryAfter : Option String

/-- One attempt's upstream result: success with the response text (possibly
malformed), or a thrown error.  `apiData` models
`error?.response?.data || error?.data || null` and `retryAfter` models the
`retry-after` header lookup. -/
inductive ModelOutcome where
  | success (text : String)
  | failure (err : JsError)

/-- Model: `String(x)` for the JSON values the server converts (the `retryDelay`
payload field); array rendering is summarised. -/
def jsToString : Json → String
  | .str s => s
  | .num q => ratDecimalString q
  | .bool b => cond b "true" "false"
  | .null => "null"
  | .arr _ => "[array]"
  | .obj _ => "[object Object]"

/-- Model: `ceil((I + F/10^k) * 1000)` for the digit groups of an `Ns`/`N.Ms`
retry-delay literal. -/
def numSValueMs (intDs fracDs : List Char) : Nat :=
  digitsToNat intDs * 1000 +
    (digitsToNat fracDs * 1000 + 10 ^ fracDs.length - 1) / 10 ^ fracDs.length

/-- One attempted match of `([0-9]+(?:\.[0-9]+)?)s` at the current position,
yielding `Math.ceil(seconds * 1000)`. -/
def numSMatchAt (cs : List Char) : Option Nat :=
  let p := takeDigits cs
  if p.1 = [] then none
  else
    match p.2 with
    | '.' :: r =>
      let f := takeDigits r
      (match f.1, f.2 with
       | _ :: _, 's' :: _ => some (numSValueMs p.1 f.1)
       | _, _ => none)
    | 's' :: _ => some (numSValueMs p.1 [])
    | _ => none

/-- Leftmost match of `([0-9]+(?:\.[0-9]+)?)s` over a string (used on
`String(apiData.retryDelay)`). -/
def scanNumS : List Char → Option Nat
  | [] => none
  | c :: rest =>
    match numSMatchAt (c :: rest) with
    | some v => some v
    | none => scanNumS rest

/-- One attempted match of the broad pattern
`\"retryDelay\"\s*[:]\s*\"?([0-9]+(?:\.[0-9]+)?)s\"?` (case-insensitive)
at the current position of the stringified payload. -/
def rdMatchAt (cs : List Char) : Option Nat :=
  match matchCI cs ("\"retrydelay\"".toList) with
  | none => none
  | some r₀ =>
    match skipWsL r₀ with
    | ':' :: r₁ =>
      let r₂ := match skipWsL r₁ with
        | '"' :: r => r
        | r => r
      let p := takeDigits r₂
      if p.1 = [] then none
      else
        (match p.2 with
         | '.' :: r =>
           let f := takeDigits r
           (match f.1, f.2 with
            | _ :: _, 's' :: _ => some (numSValueMs p.1 f.1)
            | _, _ => none)
         | 's' :: _ => some (numSValueMs p.1 [])
         | _ => none)
    | _ => none

/-- Leftmost match of the broad `retryDelay` pattern over the stringified
payload. -/
def scanRetryDelay : List Char → Option Nat
  | [] => none
  | c :: rest =>
    match rdMatchAt (c :: rest) with
    | some v => some v
    | none => scanRetryDelay rest

/-- Model: `Math.ceil(parseFloat(header) * 1000)` for a `Retry-After` header value
in seconds; `none` models `NaN`. -/
def parseFloatMs (s : String) : Option Int :=
  let cs := skipWsL s.toList
  let sgn : Bool × List Char :=
    match cs with
    | '-' :: r => (true, r)
    | '+' :: r => (false, r)
    | _ => (false, cs)
  let ip := takeDigits sgn.2
  let fracDs : List Char :=
    match ip.2 with
    | '.' :: r => (takeDigits r).1
    | _ => []
  if ip.1 = [] ∧ fracDs = [] then none
  else
    let I := digitsToNat ip.1
    let F := digitsToNat fracDs
    let k := fracDs.length
    if sgn.1 then some (-(Int.ofNat (I * 1000 + F * 1000 / 10 ^ k)))
    else some (Int.ofNat (I * 1000 + (F * 1000 + 10 ^ k - 1) / 10 ^ k))

/-- Quota classification (server.js line 467):
`/429|Too Many Requests|quota/i.test(error.message) ||
(apiData && JSON.stringify(apiData).match(/quota/i))`. -/
def isQuotaErr (e : JsError) : Bool :=
  ciContains e.message "429" || ciContains e.message "too many requests" ||
    ciContains e.message "quota" ||
    (match e.apiData with
     | some d => ciContains (Json.stringify d) "quota"
     | none => false)

/-- Authentication classification (server.js line 542):
`/API key|authentication|invalid key/i.test(error.message)`. -/
def isAuthMsg (m : String) : Bool :=
  ciContains m "api key" || ciContains m "authentication" || ciContains m "invalid key"

/-- Free-tier-disabled detection (server.js lines 501-510): searches the
lowercased stringified payload for quota-limit-zero markers. -/
def freeTierDisabled (e : JsError) : Bool :=
  match e.apiData with
  | some d =>
      let ad := lowerStr (Json.stringify d)
      containsStr ad "\"limit\":0" || containsStr ad "limit: 0" ||
        (containsStr ad "generate_content_free_tier_requests" && containsStr ad "limit: 0")
  | none => false

/-- Server-advised retry delay in milliseconds (server.js lines 470-495):
the `retryDelay` payload field, then a broad search of the stringified
payload, then the `Retry-After` header — each tried only while the value
is still null/0 (JavaScript conflates the two through `!retryDelayMs`),
and all only when a payload is present. -/
def extractRetryDelayMs (e : JsError) : Int :=
  match e.apiData with
  | none => 0
  | some d =>
    let r₁ : Int :=
      match getField "retryDelay" d with
      | some v => if jsTruthy v then Int.ofNat ((scanNumS (jsToString v).toList).getD 0) else 0
      | none => 0
    let r₂ : Int := if r₁ = 0 then Int.ofNat ((scanRetryDelay (Json.stringify d).toList).getD 0) else r₁
    if r₂ = 0 then
      match e.retryAfter with
      | some h => if h ≠ "" then (parseFloatMs h).getD 0 else 0
      | none => 0
    else r₂

/-- Category assigned to an auto-filled padding case by its 1-based
position. -/
def padCategory (idx : Nat) : String :=
  if idx ≤ 3 then "valid"
  else if idx ≤ 7 then "invalid"
  else if idx ≤ 10 then "boundary"
  else "security"

/-- Model: `String(n).padStart(3, '0')`. -/
def pad3 (n : Nat) : String :=
  if n < 10 then "00" ++ toString n
  else if n < 100 then "0" ++ toString n
  else toString n

/-- Model: `v || \x7b\x7d` on an optionally-present JSON value. -/
def jsOrObj (v : Option Json) : Json :=
  match v with
  | some j => if jsTruthy j then j else Json.obj .nil
  | none => Json.obj .nil

/-- The auto-filled case pushed by the padding loop (server.js lines
446-455): position-banded id/category, request cloned from the first
recovered case. -/
def autoFillCase (tcs : List Json) : Json :=
  let idx := tcs.length + 1
  Json.mkObj [
    ("id", .str ("TC_" ++ pad3 idx)),
    ("category", .str (padCategory idx)),
    ("description", .str ("Auto-filled " ++ toString idx)),
    ("request", jsOrObj (tcs.head?.bind (getField "request"))),
    ("expected_response", Json.mkObj [("status", .num (if idx ≤ 3 then 200 else 400))])
  ]

/-- The `while (testCases.length < 12)` padding loop, with enough fuel for
any starting length. -/
def padLoop : Nat → List Json → List Json
  | 0, l => l
  | fuel + 1, l => if l.length < 12 then padLoop fuel (l ++ [autoFillCase l]) else l

/-- One fallback case (server.js lines 562-575). -/
def fallbackCase (i : Nat) : Json :=
  let category :=
    if i ≤ 3 then "valid" else if i ≤ 7 then "invalid"
    else if i ≤ 10 then "boundary" else "security"
  let status : Rat := if i ≤ 3 then 200 else 400
  Json.mkObj [
    ("id", .str ("TC_" ++ pad3 i)),
    ("category", .str category),
    ("description", .str (category ++ " test " ++ toString i)),
    ("request", Json.mkObj [("method", .str "GET"), ("endpoint", .str "/api/test"),
                      ("headers", Json.mkObj [("Content-Type", .str "application/json")])]),
    ("expected_response", Json.mkObj [("status", .num status)])
  ]

/-- Model: `generateFallbackTestCases` (server.js lines 560-578): the
deterministic 12-case fallback batch. -/
def generateFallbackTestCases : List Json :=
  (List.range 12).map (fun k => fallbackCase (k + 1))

/-- The `Insufficient tests: got N` error thrown inside a generation
attempt. -/
def insufficientError (n : Nat) : JsError :=
  { message := "Insufficient tests: got " ++ toString n, apiData := none, retryAfter := none }

/-- Decoding of one successful response text (server.js lines 425-439):
direct `JSON.parse` accepting an array or an object with a `testCases`
array; heuristic extraction runs only when the direct parse throws. -/
def recoverTestCases (text : String) : Option (List Json) :=
  match Json.parse text with
  | some (.arr xs) => some xs.toList
  | some j =>
    (match getField "testCases" j with
     | some (.arr xs) => some xs.toList
     | _ => none)
  | none => extractArrayFromText text

/-- The body of one generation attempt's `try` block (server.js lines
417-457): returns the padded-and-truncated batch, or throws — the model's
own error, or the `Insufficient tests` error when fewer than 4 cases were
recovered. -/
def tryAttempt : ModelOutcome → Except JsError (List Json)
  | .failure e => .error e
  | .success text =>
    match recoverTestCases text with
    | some xs =>
        if xs.length < 4 then .error (insufficientError xs.length)
        else .ok ((padLoop 12 xs).take 12)
    | none => .error (insufficientError 0)

/-- Model: `USE_IMMEDIATE_FALLBACK_ON_QUOTA` (server.js line 408). -/
def USE_IMMEDIATE_FALLBACK_ON_QUOTA : Bool := false

/-- Model: `MAX_RETRY_DELAY_MS` (server.js line 409): waits are capped at 60s. -/
def MAX_RETRY_DELAY_MS : Nat := 60 * 1000

/-- Exponential backoff with jitter for a quota error without an advised
delay (server.js lines 533-535). -/
def quotaBackoffWait (attempt jitter : Nat) : Nat :=
  min (min (1000 * 2 ^ attempt) 5000 + jitter) MAX_RETRY_DELAY_MS

/-- Exponential backoff with jitter for other transient errors (server.js
lines 548-550); note: not capped by `MAX_RETRY_DELAY_MS` in the source. -/
def otherBackoffWait (attempt jitter : Nat) : Nat :=
  min (1000 * 2 ^ attempt) 5000 + jitter

/-- Trace of one `generateWithRetry` run: the returned batch or thrown
error, the sleeps performed (in order, milliseconds), and the number of
model invocations. -/
structure GenRun where
  result : Except JsError (List Json)
  waits : List Nat
  calls : Nat

/-- The retry loop of `generateWithRetry` (server.js lines 411-558), from a
given attempt number with a given number of attempts remaining.
`outcomes n` is the model's behaviour on attempt `n`; `jq`/`jo` supply the
random jitter (`Math.floor(Math.random()*1000)` resp. `*300`) per attempt.
When the attempts are exhausted the fallback batch is returned. -/
def gwrAux (outcomes : Nat → ModelOutcome) (jq jo : Nat → Nat) (maxRetries : Nat) :
    Nat → Nat → GenRun
  | 0, _ => { result := .ok generateFallbackTestCases, waits := [], calls := 0 }
  | remaining + 1, attempt =>
    match tryAttempt (outcomes attempt) with
    | .ok batch => { result := .ok batch, waits := [], calls := 1 }
    | .error e =>
      if isQuotaErr e then
        if freeTierDisabled e then
          { result := .ok generateFallbackTestCases, waits := [], calls := 1 }
        else if USE_IMMEDIATE_FALLBACK_ON_QUOTA then
          { result := .ok generateFallbackTestCases, waits := [], calls := 1 }
        else
          let d := extractRetryDelayMs e
          let w : Nat :=
            if d > 0 then min (d.toNat + 500) MAX_RETRY_DELAY_MS
            else quotaBackoffWait attempt (jq attempt)
          let rest := gwrAux outcomes jq jo maxRetries remaining (attempt + 1)
          { result := rest.result, waits := w :: rest.waits, calls := rest.calls + 1 }
      else if isAuthMsg e.message then
        { result := .error e, waits := [], calls := 1 }
      else if attempt < maxRetries then
        let rest := gwrAux outcomes jq jo maxRetries remaining (attempt + 1)
        { result := rest.result,
          waits := otherBackoffWait attempt (jo attempt) :: rest.waits,
          calls := rest.calls + 1 }
      else
        let rest := gwrAux outcomes jq jo maxRetries remaining (attempt + 1)
        { result := rest.result, waits := rest.waits, calls := rest.calls + 1 }

/-- Model: `generateWithRetry(prompt, maxRetries = 3)` as a whole run: attempts
`1..maxRetries`, then the fallback batch. -/
def generateWithRetry (outcomes : Nat → ModelOutcome) (jq jo : Nat → Nat)
    (maxRetries : Nat) : GenRun :=
  gwrAux outcomes jq jo maxRetries maxRetries 1

/-- ASCII uppercasing (models `String.prototype.toUpperCase` on method
names). -/
def upperStr (s : String) : String :=
  String.mk (s.toList.map Char.toUpper)

/-- The accepted HTTP methods (server.js line 185). -/
def validMethods : List String :=
  ["GET", "POST", "PUT", "PATCH", "DELETE", "OPTIONS", "HEAD"]

/-- Model: `validateMethod` (server.js lines 184-191): uppercase then membership
check. -/
def validateMethod (method : String) : Except String String :=
  let upper := upperStr method
  if validMethods.contains upper then .ok upper else .error "Invalid HTTP method"

/-- Model: `containsPathTraversal` (server.js lines 148-159): the six literal
alternation patterns (those with `/i` checked case-insensitively). -/
def containsPathTraversal (input : String) : Bool :=
  if input = "" then false
  else
    containsStr input "../" || containsStr input "..\\" ||
    containsStr input "/../" || containsStr input "/..\\" ||
    containsStr input "\\../" || containsStr input "\\..\\" ||
    ciContains input "%2e%2e/" || ciContains input "%2e%2e\\" ||
    ciContains input "..%2f" ||
    ciContains input "etc/passwd" || ciContains input "etc\\passwd" ||
    ciContains input "windows/system" || ciContains input "windows\\system"

/-- Model: `validateEndpoint` (server.js lines 193-208): requires a non-empty
string, trims it, and checks leading slash, length and traversal
patterns. -/
def validateEndpoint (endpoint : String) : Except String String :=
  if endpoint = "" then .error "Endpoint is required"
  else
    let trimmed := trimStr endpoint
    if ¬ startsWithStr trimmed "/" then .error "Endpoint must start with /"
    else if trimmed.length > 500 then .error "Endpoint too long"
    else if containsPathTraversal trimmed then .error "Invalid endpoint pattern"
    else .ok trimmed

/-- The raw spec object of a `/generate-tests` request (string
endpoint/method; `Json.null` stands for an absent field). -/
structure RawSpec where
  endpoint : String
  method : String
  headers : Json
  body : Json
  expected_response : Json

/-- The validated spec built at server.js lines 592-598. -/
structure ValidatedSpec where
  endpoint : String
  method : String
  headers : Json
  body : Json
  expected_response : Json

/-- Validation and normalization of a raw spec (server.js lines 590-601):
endpoint validated first, then method; `headers`/`body`/`expected_response`
defaulted to `\x7b\x7d` when falsy. -/
def validateSpec (spec : RawSpec) : Except String ValidatedSpec :=
  match validateEndpoint spec.endpoint with
  | .error m => .error m
  | .ok ep =>
    match validateMethod spec.method with
    | .error m => .error m
    | .ok me =>
      .ok { endpoint := ep, method := me,
            headers := jsOrObj (some spec.headers),
            body := jsOrObj (some spec.body),
            expected_response := jsOrObj (some spec.expected_response) }

/-- The validated spec as the object literal whose serialization is the
cache key. -/
def specToJson (v : ValidatedSpec) : Json :=
  Json.mkObj [("endpoint", .str v.endpoint), ("method", .str v.method),
        ("headers", v.headers), ("body", v.body),
        ("expected_response", v.expected_response)]

/-- Model: `JSON.stringify(validatedSpec)` (server.js line 603): the canonical
fingerprint used as cache key. -/
def cacheKey (v : ValidatedSpec) : String :=
  Json.stringify (specToJson v)

/-- The body-bearing methods (server.js line 615). -/
def methodsWithBody : List String := ["POST", "PUT", "PATCH"]

/-- Strict equality `v === 's'` of an optionally-present JSON value with a
string literal. -/
def strictEqStr (v : Option Json) (s : String) : Bool :=
  match v with
  | some (.str t) => t = s
  | _ => false

/-- Model: `'a'.repeat(1000)`. -/
def aThousand : String := String.mk (List.replicate 1000 'a')

/-- The fixed security payload body (server.js lines 638-641). -/
def securityBody : Json :=
  Json.mkObj [("name", .str "<script>alert(\x27XSS\x27)</script>"),
        ("email", .str "test@test.com\x27 OR \x271\x27=\x271")]

/-- Model: `v || 'dflt'` on an optionally-present JSON value, with a string
default. -/
def jsOrStrDefault (v : Option Json) (dflt : String) : Json :=
  match v with
  | some j => if jsTruthy j then j else .str dflt
  | none => .str dflt

/-- The patching step applied to each generated case (server.js lines
616-650): request method/endpoint/headers overwritten from the validated
spec; for body-bearing methods the body is set per category (valid → the
spec's body, invalid → a deterministically-defected copy, boundary →
empty/overlong fields, security → fixed payloads) and the expected status
is 201 for POST / 200 otherwise on valid cases and 400 on all others; for
non-body methods the body is deleted and the status is 200/400. -/
def patchTestCase (v : ValidatedSpec) (tc : Json) : Json :=
  let req₀ := jsOrObj (getField "request" tc)
  let req₁ :=
    setField (setField (setField req₀ "method" (.str v.method)) "endpoint" (.str v.endpoint))
      "headers" v.headers
  let cat := getField "category" tc
  let id := getField "id" tc
  if methodsWithBody.contains v.method then
    let req₂ :=
      if strictEqStr cat "valid" then setField req₁ "body" v.body
      else if strictEqStr cat "invalid" then
        let b₀ := Json.obj (spreadFields v.body)
        let b₁ :=
          if strictEqStr id "TC_004" then deleteField b₀ "name"
          else if strictEqStr id "TC_005" then deleteField b₀ "email"
          else if strictEqStr id "TC_006" then setField b₀ "email" (.str "notanemail")
          else Json.mkObj [("invalid_field", .str "wrong data")]
        setField req₁ "body" b₁
      else if strictEqStr cat "boundary" then
        setField req₁ "body" (Json.mkObj [
          ("name", if strictEqStr id "TC_008" then .str "" else .str aThousand),
          ("email", if strictEqStr id "TC_009" then .str ""
                    else jsOrStrDefault (getField "email" v.body) "test@test.com")])
      else if strictEqStr cat "security" then setField req₁ "body" securityBody
      else req₁
    let er₀ := jsOrObj (getField "expected_response" tc)
    let er₁ := setField er₀ "status"
      (.num (if strictEqStr cat "valid" then (if v.method = "POST" then 201 else 200) else 400))
    setField (setField tc "request" req₂) "expected_response" er₁
  else
    let req₂ := deleteField req₁ "body"
    let er₀ := jsOrObj (getField "expected_response" tc)
    let er₁ := setField er₀ "status" (.num (if strictEqStr cat "valid" then 200 else 400))
    setField (setField tc "request" req₂) "expected_response" er₁

/-- The per-category counts of the generation summary (server.js lines
652-658). -/
structure GenSummary where
  total : Nat
  valid : Nat
  invalid : Nat
  boundary : Nat
  security : Nat

/-- Count of cases whose `category` field strictly equals `c`. -/
def countCategory (tcs : List Json) (c : String) : Nat :=
  (tcs.filter (fun tc => strictEqStr (getField "category" tc) c)).length

/-- The summary object of a generation response. -/
def mkSummary (tcs : List Json) : GenSummary :=
  { total := tcs.length,
    valid := countCategory tcs "valid",
    invalid := countCategory tcs "invalid",
    boundary := countCategory tcs "boundary",
    security := countCategory tcs "security" }

/-- The cached/returned content of a generation response (the `cached`
marker is carried separately by `GenerateOut.ok`). -/
structure GenResponse where
  success : Bool
  testCases : List Json
  summary : GenSummary
  message : String

/-- The cache TTL in milliseconds (`new NodeCache(\x7b stdTTL: 60 * 60 \x7d)`,
server.js line 56: one hour). -/
def ttlMs : Nat := 60 * 60 * 1000

/-- One stored cache entry with its insertion time. -/
structure CacheEntry where
  insertedAt : Nat
  value : GenResponse

/-- Association-list lookup for the cache. -/
def cacheLookup (k : String) : List (String × CacheEntry) → Option CacheEntry
  | [] => none
  | (k', e) :: rest => if k' = k then some e else cacheLookup k rest

/-- Modelled from the spec: the result cache is the external `node-cache`
dependency (server.js line 56), described by the spec as "lifetime = fixed
TTL from insertion (1 hour), after which the entry is evicted lazily on
next lookup".  A lookup hits while strictly less than `ttlMs` has elapsed
since insertion. -/
def cacheGet (now : Nat) (cache : List (String × CacheEntry)) (k : String) : Option GenResponse :=
  match cacheLookup k cache with
  | some e => if now < e.insertedAt + ttlMs then some e.value else none
  | none => none

/-- Modelled from the spec: `generatedCache.set(key, value)` stores the
value with the configured TTL from the insertion time (at most one entry
per key). -/
def cacheSet (now : Nat) (cache : List (String × CacheEntry)) (k : String) (v : GenResponse) :
    List (String × CacheEntry) :=
  (k, { insertedAt := now, value := v }) :: cache.filter (fun p => p.1 ≠ k)

/-- The response built on a cache miss (server.js lines 612-660): the
generated batch patched against the spec, its summary, and the message. -/
def builtResponse (gen : ValidatedSpec → List Json) (v : ValidatedSpec) : GenResponse :=
  let testCases := (gen v).map (patchTestCase v)
  { success := true, testCases := testCases, summary := mkSummary testCases,
    message := "Generated " ++ toString testCases.length ++ " test cases" }

/-- Outcome of a `/generate-tests` request: a validation error, or a
response with its `cached` marker. -/
inductive GenerateOut where
  | invalidSpec (message : String)
  | ok (resp : GenResponse) (cached : Bool)

/-- A `/generate-tests` run: the response, the cache afterwards, and
whether the generation engine was invoked. -/
structure GenerateRun where
  out : GenerateOut
  cache : List (String × CacheEntry)
  genCalled : Bool

/-- The `/generate-tests` handler (server.js lines 583-663): validate and
normalize the spec, consult the cache by canonical fingerprint (a hit is
returned with `cached: true` without invoking generation), otherwise
generate (abstracted as `gen`, the awaited `generateWithRetry` batch),
patch every case against the spec, summarize, store and return. -/
def handleGenerateTests (gen : ValidatedSpec → List Json) (now : Nat)
    (cache : List (String × CacheEntry)) (spec : RawSpec) : GenerateRun :=
  match validateSpec spec with
  | .error m => { out := .invalidSpec m, cache := cache, genCalled := false }
  | .ok v =>
    let key := cacheKey v
    match cacheGet now cache key with
    | some resp => { out := .ok resp true, cache := cache, genCalled := false }
    | none =>
      let resp := builtResponse gen v
      { out := .ok resp false, cache := cacheSet now cache key resp, genCalled := true }

/-- Outcome of one HTTP probe issued by `executeTest`: a resolved response
(any status, since `validateStatus` accepts all), or a transport-level
failure; `elapsedMs` models the measured wall-clock duration. -/
inductive ProbeOutcome where
  | response (status : Int) (statusText : String) (data : Json) (elapsedMs : Nat)
  | netError (code : Option String) (message : String)
      (respStatus : Option (Int × String)) (elapsedMs : Nat)

/-- One entry of a validation report (server.js lines 721-743). -/
structure ValidationDetail where
  check : String
  passed : Bool
  expected : Option Json
  actual : Option Json

/-- A validation report: overall verdict plus ordered detail entries. -/
structure ValidationReport where
  passed : Bool
  details : List ValidationDetail

/-- Response body as a string: verbatim if already a string, otherwise its
JSON serialization (server.js lines 727 and 735). -/
def responseBodyStr (data : Json) : String :=
  match data with
  | .str s => s
  | j => Json.stringify j

/-- Details for the `body_contains` checks, one per listed item in order. -/
def bodyContainsDetails (respStr : String) (items : List Json) : List ValidationDetail :=
  items.map (fun t =>
    let txt := jsToString t
    let c := containsStr respStr txt
    { check := "body_contains", passed := c,
      expected := some (.str ("contains \"" ++ txt ++ "\"")),
      actual := some (.str (cond c "found" "not found")) })

/-- Details for the `body_not_contains` checks, one per listed item in
order. -/
def bodyNotContainsDetails (respStr : String) (items : List Json) : List ValidationDetail :=
  items.map (fun t =>
    let txt := jsToString t
    let c := containsStr respStr txt
    { check := "body_not_contains", passed := !c,
      expected := some (.str ("does not contain \"" ++ txt ++ "\"")),
      actual := some (.str (cond c "found (should not be)" "not found (correct)")) })

/-- Model: `validateResponse` (server.js lines 721-743): the status-code equality
check first, then the `body_contains` checks in list order, then the
`body_not_contains` checks in list order; the overall verdict is the
conjunction of all details. -/
def validateResponse (status : Int) (data : Json) (expected : Json) : ValidationReport :=
  let statusMatch : Bool :=
    match getField "status" expected with
    | some (.num q) => q.den = 1 ∧ q.num = status
    | _ => false
  let d₀ : ValidationDetail :=
    { check := "status_code", passed := statusMatch,
      expected := getField "status" expected, actual := some (.num status) }
  let bc : List Json :=
    match getField "body_contains" expected with
    | some (.arr xs) => xs.toList
    | _ => []
  let bnc : List Json :=
    match getField "body_not_contains" expected with
    | some (.arr xs) => xs.toList
    | _ => []
  let ds := d₀ :: (bodyContainsDetails (responseBodyStr data) bc ++
                   bodyNotContainsDetails (responseBodyStr data) bnc)
  { passed := ds.all (fun d => d.passed), details := ds }

/-- Model: `formatError` (server.js lines 745-752). -/
def formatError (code : Option String) (message : String)
    (respStatus : Option (Int × String)) : String :=
  if code = some "ECONNREFUSED" then "Connection refused - Server not reachable"
  else if code = some "ETIMEDOUT" then "Request timeout - Server took too long to respond"
  else
    match respStatus with
    | some p => "HTTP " ++ toString p.1 ++ ": " ++ p.2
    | none => if code = some "ENOTFOUND" then "DNS lookup failed - Invalid host" else message

/-- Target URL resolution (server.js lines 681-685): an absolute URL is
used verbatim, otherwise the endpoint is joined to the base URL. -/
def resolveUrl (endpoint baseUrl : String) : String :=
  if startsWithStr endpoint "http://" || startsWithStr endpoint "https://" then endpoint
  else baseUrl ++ (if startsWithStr endpoint "/" then "" else "/") ++ endpoint

/-- One execution result (server.js lines 704-718). -/
structure ExecResult where
  id : Option Json
  category : Option Json
  description : Option Json
  status : String
  duration : String
  validations : Option ValidationReport
  actual : Option (Int × String × Json)
  error : Option String
  expected : Option Json
  url : Option String

/-- The `catch` branch of `executeTest`: an ERROR-status result carrying a
human-readable cause. -/
def execErrorResult (test : Json) (elapsed : Nat) (msg : String) : ExecResult :=
  { id := getField "id" test, category := getField "category" test,
    description := getField "description" test, status := "ERROR ❌",
    duration := toString elapsed ++ "ms", validations := none, actual := none,
    error := some msg, expected := getField "expected_response" test, url := none }

/-- Elapsed-time component of a probe outcome. -/
def elapsedOf : ProbeOutcome → Nat
  | .response _ _ _ e => e
  | .netError _ _ _ e => e

/-- The result `executeTest` returns whenever its `catch` block can
complete, i.e. for every test entry other than `null` (server.js lines
677-719): resolve the URL, issue the probe, validate the response, and
classify as PASSED/FAILED; any thrown error — a transport fault, a
malformed `request` (property access on a non-object throws before the
probe), or a null/absent `expected_response` (the validator's property
access throws) — is caught and classified as ERROR for this test alone.
Thrown `TypeError` messages are summarised. -/
def executeTestCaught (test : Json) (baseUrl : String) (probe : ProbeOutcome) : ExecResult :=
  match (getField "request" test).bind (getField "endpoint"),
        (getField "request" test).bind (getField "method") with
  | some (.str ep), some (.str _) =>
    let fullUrl := resolveUrl ep baseUrl
    (match probe with
     | .netError code msg respSt elapsed =>
        execErrorResult test elapsed (formatError code msg respSt)
     | .response st stxt data elapsed =>
        match getField "expected_response" test with
        | some Json.null => execErrorResult test elapsed "TypeError: expected_response is null"
        | none => execErrorResult test elapsed "TypeError: expected_response is undefined"
        | some expected =>
          let validations := validateResponse st data expected
          { id := getField "id" test, category := getField "category" test,
            description := getField "description" test,
            status := cond validations.passed "PASSED ✅" "FAILED ❌",
            duration := toString elapsed ++ "ms", validations := some validations,
            actual := some (st, stxt, data), error := none,
            expected := some expected, url := some fullUrl })
  | _, _ => execErrorResult test (elapsedOf probe) "TypeError: malformed test request"

/-- Model: `executeTest` (server.js lines 677-719).  For a `null` test
entry the `try` block throws reading `test.request`, and the `catch`
block itself then throws reading `test.id` (line 717), so the promise
`executeTest` returns rejects with that second `TypeError`; for every
other test entry property access never throws inside the `catch` block,
so the `catch` (if reached) completes and a result object is returned. -/
def executeTest (test : Json) (baseUrl : String) (probe : ProbeOutcome) :
    Except String ExecResult :=
  match test with
  | Json.null => Except.error "Cannot read properties of null (reading \x27id\x27)"
  | t => Except.ok (executeTestCaught t baseUrl probe)

/-- Collection of the batch promises from index `i` on (server.js line
771): `Promise.all` yields the results in input order, or rejects with
the error of a rejected test promise (represented here by the first in
input order), in which case the route answers 500 with no results
array. -/
def runTestsAux (baseUrl : String) (probes : Nat → ProbeOutcome) :
    Nat → List Json → Except String (List ExecResult)
  | _, [] => Except.ok []
  | i, t :: ts =>
    match executeTest t baseUrl (probes i), runTestsAux baseUrl probes (i + 1) ts with
    | Except.error e, _ => Except.error e
    | Except.ok _, Except.error e => Except.error e
    | Except.ok r, Except.ok rs => Except.ok (r :: rs)

/-- The `/run-tests` batch dispatch (server.js lines 769-771): one result
per input test, collected in input order by `Promise.all`; `probes i` is
the network outcome of test `i`.  A test entry on which `executeTest`
itself throws rejects the whole batch. -/
def runTests (tests : List Json) (baseUrl : String) (probes : Nat → ProbeOutcome) :
    Except String (List ExecResult) :=
  runTestsAux baseUrl probes 0 tests

/-- The aggregated counts of a batch run (server.js lines 774-783;
string-formatted duration/rate fields are not modelled). -/
structure RunStats where
  total : Nat
  passed : Nat
  failed : Nat
  errors : Nat

/-- The three result statuses. -/
def passedStr : String := "PASSED ✅"

/-- FAILED status string. -/
def failedStr : String := "FAILED ❌"

/-- ERROR status string. -/
def errorStr : String := "ERROR ❌"

/-- Aggregation of a result list into counts. -/
def runStats (results : List ExecResult) : RunStats :=
  { total := results.length,
    passed := (results.filter (fun r => r.status = passedStr)).length,
    failed := (results.filter (fun r => r.status = failedStr)).length,
    errors := (results.filter (fun r => r.status = errorStr)).length }

/-- State of the concurrency limiter: tasks currently in flight and tasks
still queued. -/
structure LimiterState where
  active : Nat
  pending : Nat

/-- Modelled from the spec: the `p-limit` semaphore (an external
dependency, server.js lines 769 and 816) per the spec's "semaphore
bounding simultaneous in-flight probes to `concurrency`; tests beyond the
bound queue until a slot frees": a queued task may start only while fewer
than `limit` tasks are active, and an active task may finish at any
time. -/
inductive LimiterStep (limit : Nat) : LimiterState → LimiterState → Prop
  | start {a p : Nat} : a < limit → LimiterStep limit ⟨a, p + 1⟩ ⟨a + 1, p⟩
  | finish {a p : Nat} : LimiterStep limit ⟨a + 1, p⟩ ⟨a, p⟩

/-- States reachable from the initial state (no task started, `n`
queued). -/
def LimiterReachable (limit n : Nat) (s : LimiterState) : Prop :=
  Relation.ReflTransGen (LimiterStep limit) ⟨0, n⟩ s

/-- The configured default concurrency (server.js line 57;
`REQUEST_CONCURRENCY` unset gives 8). -/
def defaultConcurrency : Int := 8

/-- The limit handed to `pLimit` (server.js lines 769 and 816):
`concurrency && Number.isInteger(concurrency) ? concurrency :
defaultConcurrency`. -/
def effectiveConcurrency (c : Json) (dflt : Int) : Int :=
  match c with
  | .num q => if q.num ≠ 0 ∧ q.den = 1 then q.num else dflt
  | _ => dflt

/-- A jitter source that always returns 0 (one concrete randomness
choice). -/
def zeroJitter : Nat → Nat := fun _ => 0

/-- A model that returns a parseable 4-element array whose cases carry
their own ids/categories (first id `"X"`). -/
def bandOutcomes : Nat → ModelOutcome :=
  fun _ => .success "[\x7b\"id\":\"X\"\x7d,\x7b\"a\":1\x7d,\x7b\"a\":2\x7d,\x7b\"a\":3\x7d]"

/-- The batch returned by `generateWithRetry` on `bandOutcomes`. -/
def bandBatch : List Json :=
  ((generateWithRetry bandOutcomes zeroJitter zeroJitter 3).result).toOption.getD []

/-- The claim's banded-batch property: exactly 12 cases whose ids are
`TC_001`..`TC_012` in positional order with the fixed category bands
(1-3 valid, 4-7 invalid, 8-10 boundary, 11-12 security). -/
def claimedBandBatch (b : List Json) : Prop :=
  b.length = 12 ∧
  ∀ i < 12, b[i]?.bind (getField "id") = some (.str ("TC_" ++ pad3 (i + 1))) ∧
            b[i]?.bind (getField "category") = some (.str (padCategory (i + 1)))

/-- An authentication failure raised by the model call. -/
def authError : JsError :=
  { message := "Invalid KEY provided", apiData := none, retryAfter := none }

/-- A model that always fails with the authentication error. -/
def authOutcomes : Nat → ModelOutcome := fun _ => .failure authError

/-- A quota failure whose payload reports a zero free-tier limit. -/
def freeTierError : JsError :=
  { message := "429 Too Many Requests",
    apiData := some (Json.mkObj [("error", Json.mkObj [("code", .num 429),
      ("details", Json.mkArr [Json.mkObj [("quotaMetric", .str "generate_content_free_tier_requests"),
                              ("limit", .num 0)]])])]),
    retryAfter := none }

/-- A model that always fails with the free-tier quota error. -/
def freeTierOutcomes : Nat → ModelOutcome := fun _ => .failure freeTierError

/-- A quota failure advising a 61-second retry delay. -/
def bigDelayError : JsError :=
  { message := "429 Too Many Requests",
    apiData := some (Json.mkObj [("retryDelay", .str "61s")]), retryAfter := none }

/-- First attempt fails with the 61s-advised quota error; the second
succeeds with a parseable 4-element array. -/
def bigDelayOutcomes : Nat → ModelOutcome :=
  fun n => if n = 1 then .failure bigDelayError else .success "[1,2,3,4]"

/-- A quota failure advising a 2-second retry delay. -/
def advisedDelayError : JsError :=
  { message := "quota exceeded for project",
    apiData := some (Json.mkObj [("retryDelay", .str "2s")]), retryAfter := none }

/-- A bare 429 quota failure with no payload. -/
def plainQuotaError : JsError :=
  { message := "429", apiData := none, retryAfter := none }

/-- The POST spec of the end-to-end scenario, with an explicitly configured
success status of 200. -/
def cSpecPost : ValidatedSpec :=
  { endpoint := "/users", method := "POST", headers := Json.mkObj [],
    body := Json.mkObj [("name", .str "John"), ("email", .str "john@example.com")],
    expected_response := Json.mkObj [("status", .num 200)] }

/-- A well-shaped generated case of category `valid`. -/
def cValidCase : Json :=
  Json.mkObj [("id", .str "TC_001"), ("category", .str "valid"),
        ("description", .str "Valid request with all required fields"),
        ("request", Json.mkObj []), ("expected_response", Json.mkObj [])]

/-- The claim's notion of a spec's "configured success status": 201 for
POST, else 200, unless overridden by the spec's `expected_response.status`
(stated from the claim's words, for comparison with the code). -/
def claimedSuccessStatus (v : ValidatedSpec) : Rat :=
  match getField "status" v.expected_response with
  | some (.num s) => s
  | _ => if v.method = "POST" then 201 else 200

/-- The expected status of a case (`tc.expected_response.status`). -/
def statusOf (tc : Json) : Option Json :=
  (getField "expected_response" tc).bind (getField "status")

/-- The request body of a case (`tc.request.body`). -/
def requestBodyOf (tc : Json) : Option Json :=
  (getField "request" tc).bind (getField "body")

/-- Model text with a fenced block holding a valid 3-element array. -/
def fencedExample : String :=
  "Here are the tests:\n\x60\x60\x60json\n[1, 2, 3]\n\x60\x60\x60\nGood luck!"

/-- Model text with a valid array surrounded only by prose. -/
def proseExample : String :=
  "Sure! The cases are [\x7b\"id\":\"TC_001\"\x7d] as requested."

/-- Model text with no parseable array anywhere. -/
def noArrayExample : String :=
  "I could not generate any tests this time."

/-- A generation engine stub returning an empty batch. -/
def genZero : ValidatedSpec → List Json := fun _ => []

/-- A generation engine stub returning one valid case. -/
def genOne : ValidatedSpec → List Json := fun _ => [cValidCase]

/-- A raw spec with lowercase method. -/
def rawSpecA : RawSpec :=
  { endpoint := "/users", method := "post", headers := .null, body := .null,
    expected_response := .null }

/-- The same spec with surrounding endpoint whitespace and uppercase
method. -/
def rawSpecB : RawSpec :=
  { endpoint := " /users ", method := "POST", headers := .null, body := .null,
    expected_response := .null }

/-- A connection-refused transport failure. -/
def probeRefused : ProbeOutcome :=
  .netError (some "ECONNREFUSED") "connect ECONNREFUSED 127.0.0.1:3000" none 3

/-- A resolved 201 response. -/
def probeCreated : ProbeOutcome :=
  .response 201 "Created" (Json.mkObj [("success", .bool true)]) 12

/-- First attempt fails with the 2s-advised quota error; the second
succeeds. -/
def advisedOutcomes : Nat → ModelOutcome :=
  fun n => if n = 1 then .failure advisedDelayError else .success "[1,2,3,4]"

/-- First attempt fails with the bare quota error; the second succeeds. -/
def plainQuotaOutcomes : Nat → ModelOutcome :=
  fun n => if n = 1 then .failure plainQuotaError else .success "[1,2,3,4]"

/-- The keys of an object's member list, in order. -/
def keysOf : JsonObj → List String
  | .nil => []
  | .cons k _ rest => k :: keysOf rest

/-- A probe map: test 0 resolves, the rest fail at transport level. -/
def sampleProbes : Nat → ProbeOutcome :=
  fun i => if i = 0 then probeCreated else probeRefused

/-- The validated value of `rawSpecA` (and of `rawSpecB`). -/
def specAValidated : ValidatedSpec :=
  { endpoint := "/users", method := "POST", headers := Json.obj .nil,
    body := Json.obj .nil, expected_response := Json.obj .nil }

/-- The response built for `rawSpecA` by the one-case engine stub. -/
def respA : GenResponse := builtResponse genOne specAValidated

/-! ### Lemmas and claim theorems -/

lemma padLoop_length (fuel : Nat) (l : List Json) :
    min 12 (l.length + fuel) ≤ (padLoop fuel l).length := by
  induction fuel generalizing l with
  | zero => rw [padLoop]; omega
  | succ n ih =>
    rw [padLoop]
    by_cases h : l.length < 12
    · simp only [h, if_true]
      have := ih (l ++ [autoFillCase l])
      simp only [List.length_append, List.length_singleton] at this
      omega
    · simp only [h, if_false]
      omega

lemma tryAttempt_ok_length (o : ModelOutcome) (b : List Json)
    (h : tryAttempt o = .ok b) : b.length = 12 := by
  cases o with
  | failure e => simp [tryAttempt] at h
  | success text =>
    rw [tryAttempt] at h
    cases hrec : recoverTestCases text with
    | none => rw [hrec] at h; simp at h
    | some xs =>
      rw [hrec] at h
      by_cases hlen : xs.length < 4
      · simp only [hlen, if_true] at h; exact (Except.noConfusion h)
      · simp only [hlen, if_false] at h
        cases h
        have h12 := padLoop_length 12 xs
        rw [List.length_take]
        omega

lemma gwrAux_ok_length (outcomes : Nat → ModelOutcome) (jq jo : Nat → Nat)
    (maxRetries : Nat) :
    ∀ r attempt b, (gwrAux outcomes jq jo maxRetries r attempt).result = .ok b →
      b.length = 12 := by
  intro r
  induction r with
  | zero =>
    intro attempt b h
    rw [gwrAux] at h
    cases h
    rfl
  | succ n ih =>
    intro attempt b h
    rw [gwrAux] at h
    cases hta : tryAttempt (outcomes attempt) with
    | ok batch =>
      rw [hta] at h
      cases h
      exact tryAttempt_ok_length _ _ hta
    | error e =>
      rw [hta] at h
      by_cases hq : isQuotaErr e
      · simp only [hq, if_true] at h
        by_cases hft : freeTierDisabled e
        · simp only [hft, if_true] at h
          cases h
          rfl
        · simp only [hft, if_false, USE_IMMEDIATE_FALLBACK_ON_QUOTA, Bool.false_eq_true,
            if_false] at h
          exact ih (attempt + 1) b h
      · simp only [hq, if_false] at h
        by_cases ha : isAuthMsg e.message
        · simp only [ha, if_true] at h
          exact (Except.noConfusion h)
        · simp only [ha, if_false] at h
          by_cases hlt : attempt < maxRetries
          · simp only [hlt, if_true] at h
            exact ih (attempt + 1) b h
          · simp only [hlt, if_false] at h
            exact ih (attempt + 1) b h

/-- C1 (counterexample): the batch claim fails as stated — on a model
response that parses to a 4-element array with its own ids, the returned
batch's first case keeps the model's id `"X"`, so the batch does not carry
the claimed positional `TC_001`..`TC_012` ids and category bands. -/
theorem generation_band_claim_counterexample :
    (generateWithRetry bandOutcomes zeroJitter zeroJitter 3).result = .ok bandBatch ∧
    ¬ claimedBandBatch bandBatch := by
  constructor
  · rfl
  · intro hband
    have h0 := hband.2 0 (by omega)
    have hx : bandBatch[0]?.bind (getField "id") = some (.str "X") := by rfl
    rw [hx] at h0
    have := h0.1
    simp only [Option.some.injEq, Json.str.injEq] at this
    exact absurd this (by decide)

/-- C1 (amended): every batch `generateWithRetry` returns (it can instead
throw on authentication errors) contains exactly 12 cases; the claimed
positional `TC_001`..`TC_012` ids and fixed category bands hold for the
deterministic fallback batch, while cases recovered from the model keep
the model's own ids and categories. -/
theorem generation_batch_size_and_fallback_bands :
    (∀ (outcomes : Nat → ModelOutcome) (jq jo : Nat → Nat) (maxRetries r attempt : Nat)
       (b : List Json),
       (gwrAux outcomes jq jo maxRetries r attempt).result = .ok b → b.length = 12) ∧
    claimedBandBatch generateFallbackTestCases := by
  constructor
  · intro outcomes jq jo maxRetries r attempt b h
    exact gwrAux_ok_length outcomes jq jo maxRetries r attempt b h
  · constructor
    · rfl
    · intro i hi
      interval_cases i <;> exact ⟨rfl, rfl⟩

/-- C1 (witness): the amended theorem applied to the concrete
counterexample run. -/
theorem generation_batch_size_witness : bandBatch.length = 12 :=
  generation_batch_size_and_fallback_bands.1 bandOutcomes zeroJitter zeroJitter 3 3 1
    bandBatch rfl


lemma gwrAux_error_aux (outcomes : Nat → ModelOutcome) (jq jo : Nat → Nat)
    (maxRetries : Nat) :
    ∀ r attempt e, attempt + r = maxRetries + 1 →
      (gwrAux outcomes jq jo maxRetries r attempt).result = .error e →
      isAuthMsg e.message = true ∧ isQuotaErr e = false ∧
      (gwrAux outcomes jq jo maxRetries r attempt).waits.length + 1 =
        (gwrAux outcomes jq jo maxRetries r attempt).calls := by
  intro r
  induction r with
  | zero =>
    intro attempt e _ h
    rw [gwrAux] at h
    exact (Except.noConfusion h)
  | succ n ih =>
    intro attempt e hrel h
    rw [gwrAux] at h ⊢
    cases hta : tryAttempt (outcomes attempt) with
    | ok batch =>
      rw [hta] at h
      exact (Except.noConfusion h)
    | error e' =>
      rw [hta] at h
      by_cases hq : isQuotaErr e'
      · simp only [hq, if_true] at h ⊢
        by_cases hft : freeTierDisabled e'
        · simp only [hft, if_true] at h
          exact (Except.noConfusion h)
        · simp only [hft, USE_IMMEDIATE_FALLBACK_ON_QUOTA, Bool.false_eq_true, if_false] at h ⊢
          have hih := ih (attempt + 1) e (by omega) h
          refine ⟨hih.1, hih.2.1, ?_⟩
          simp only [List.length_cons]
          omega
      · simp only [hq, Bool.false_eq_true, if_false] at h ⊢
        by_cases ha : isAuthMsg e'.message
        · simp only [ha, if_true] at h ⊢
          cases h
          exact ⟨ha, by simp [hq], rfl⟩
        · simp only [ha, Bool.false_eq_true, if_false] at h ⊢
          by_cases hlt : attempt < maxRetries
          · simp only [hlt, if_true] at h ⊢
            have hih := ih (attempt + 1) e (by omega) h
            refine ⟨hih.1, hih.2.1, ?_⟩
            simp only [List.length_cons]
            omega
          · simp only [hlt, if_false] at h ⊢
            have hn : n = 0 := by omega
            subst hn
            rw [gwrAux] at h
            exact (Except.noConfusion h)

/-- C2: `generateWithRetry` propagates an error to its caller only when an
attempt failed with an error whose message matches the authentication
pattern and which is not classified as a quota error; such an error is
rethrown immediately — the failing invocation is the run's last call, with
no wait after it (each earlier attempt contributed exactly one wait), so
no further attempts and no fallback follow — and conversely, at any
attempt that raises a non-quota authentication error, the loop returns
exactly that error after that single call.  In every other case the run
returns a batch rather than throwing. -/
theorem generateWithRetry_error_only_auth :
    (∀ (outcomes : Nat → ModelOutcome) (jq jo : Nat → Nat) (maxRetries : Nat) (e : JsError),
       (generateWithRetry outcomes jq jo maxRetries).result = .error e →
       isAuthMsg e.message = true ∧ isQuotaErr e = false ∧
       (generateWithRetry outcomes jq jo maxRetries).waits.length + 1 =
         (generateWithRetry outcomes jq jo maxRetries).calls) ∧
    (∀ (outcomes : Nat → ModelOutcome) (jq jo : Nat → Nat) (maxRetries r attempt : Nat)
       (e : JsError),
       tryAttempt (outcomes attempt) = .error e →
       isQuotaErr e = false → isAuthMsg e.message = true →
       gwrAux outcomes jq jo maxRetries (r + 1) attempt =
         { result := .error e, waits := [], calls := 1 }) := by
  constructor
  · intro outcomes jq jo maxRetries e h
    exact gwrAux_error_aux outcomes jq jo maxRetries maxRetries 1 e (by omega) h
  · intro outcomes jq jo maxRetries r attempt e hta hq ha
    rw [gwrAux, hta]
    simp only [hq, Bool.false_eq_true, if_false, ha, if_true]

/-- C2 (witness): a run whose first attempt raises a non-quota
authentication error returns that error after a single call with no
wait. -/
theorem generateWithRetry_error_only_auth_witness :
    isAuthMsg authError.message = true ∧ isQuotaErr authError = false ∧
    (generateWithRetry authOutcomes zeroJitter zeroJitter 3).waits.length + 1 =
      (generateWithRetry authOutcomes zeroJitter zeroJitter 3).calls :=
  generateWithRetry_error_only_auth.1 authOutcomes zeroJitter zeroJitter 3 authError rfl

/-- C6: when an attempt fails with a quota error whose payload indicates a
zero quota allotment (free tier disabled), the loop returns the
deterministic fallback batch immediately from within that attempt — one
call, no wait, no further invocations. -/
theorem quota_free_tier_immediate_fallback :
    ∀ (outcomes : Nat → ModelOutcome) (jq jo : Nat → Nat) (maxRetries r attempt : Nat)
      (e : JsError),
      tryAttempt (outcomes attempt) = .error e →
      isQuotaErr e = true → freeTierDisabled e = true →
      gwrAux outcomes jq jo maxRetries (r + 1) attempt =
        { result := .ok generateFallbackTestCases, waits := [], calls := 1 } := by
  intro outcomes jq jo maxRetries r attempt e hta hq hft
  rw [gwrAux, hta]
  simp only [hq, if_true, hft]

/-- C6 (witness): the concrete free-tier quota failure returns the
fallback immediately on the first attempt. -/
theorem quota_free_tier_immediate_fallback_witness :
    gwrAux freeTierOutcomes zeroJitter zeroJitter 3 3 1 =
      { result := .ok generateFallbackTestCases, waits := [], calls := 1 } :=
  quota_free_tier_immediate_fallback freeTierOutcomes zeroJitter zeroJitter 3 2 1
    freeTierError rfl rfl rfl

/-- C7 (counterexample): the claim's "hence at least d ms" fails — for a
server-advised retry delay of 61000 ms the wait is the 60000 ms cap,
which is less than the advised delay. -/
theorem quota_wait_advised_counterexample :
    extractRetryDelayMs bigDelayError = 61000 ∧
    (generateWithRetry bigDelayOutcomes zeroJitter zeroJitter 3).waits = [60000] ∧
    ¬ ((61000 : Nat) ≤ 60000) :=
  ⟨rfl, rfl, by decide⟩

/-- C7 (amended): for a quota error carrying a server-advised delay of `d`
ms the wait before the next attempt equals `min (d + 500) 60000` — at
least `d` whenever `d` is at most the 60-second cap, and never more than
the cap; for a quota error with no advised delay the wait equals
`min (1000·2^attempt) 5000` plus the jitter (strictly less than 1000 ms),
which also never exceeds the cap. -/
theorem quota_wait_characterization :
    ∀ (outcomes : Nat → ModelOutcome) (jq jo : Nat → Nat) (maxRetries r attempt : Nat)
      (e : JsError),
      tryAttempt (outcomes attempt) = .error e →
      isQuotaErr e = true → freeTierDisabled e = false →
      ((0 < extractRetryDelayMs e →
         (gwrAux outcomes jq jo maxRetries (r + 1) attempt).waits =
           min ((extractRetryDelayMs e).toNat + 500) MAX_RETRY_DELAY_MS ::
             (gwrAux outcomes jq jo maxRetries r (attempt + 1)).waits ∧
         ((extractRetryDelayMs e).toNat ≤ MAX_RETRY_DELAY_MS →
           (extractRetryDelayMs e).toNat ≤
             min ((extractRetryDelayMs e).toNat + 500) MAX_RETRY_DELAY_MS) ∧
         min ((extractRetryDelayMs e).toNat + 500) MAX_RETRY_DELAY_MS ≤
           MAX_RETRY_DELAY_MS) ∧
       (extractRetryDelayMs e ≤ 0 → jq attempt < 1000 →
         (gwrAux outcomes jq jo maxRetries (r + 1) attempt).waits =
           (min (1000 * 2 ^ attempt) 5000 + jq attempt) ::
             (gwrAux outcomes jq jo maxRetries r (attempt + 1)).waits ∧
         min (1000 * 2 ^ attempt) 5000 + jq attempt ≤ MAX_RETRY_DELAY_MS)) := by
  intro outcomes jq jo maxRetries r attempt e hta hq hft
  rw [gwrAux, hta]
  simp only [hq, if_true, hft, Bool.false_eq_true, if_false,
    USE_IMMEDIATE_FALLBACK_ON_QUOTA]
  constructor
  · intro hd
    rw [if_pos hd]
    refine ⟨rfl, ?_, ?_⟩
    · intro hcap
      simp only [MAX_RETRY_DELAY_MS] at *
      omega
    · simp only [MAX_RETRY_DELAY_MS]
      omega
  · intro hd hjq
    rw [if_neg (by omega)]
    constructor
    · simp only [quotaBackoffWait, MAX_RETRY_DELAY_MS]
      have hb : min (1000 * 2 ^ attempt) 5000 ≤ 5000 := by omega
      have : min (min (1000 * 2 ^ attempt) 5000 + jq attempt) (60 * 1000) =
          min (1000 * 2 ^ attempt) 5000 + jq attempt := by omega
      rw [this]
    · simp only [MAX_RETRY_DELAY_MS]
      omega

/-- C7 (witness): the amended characterization applied to a 2s-advised
quota error (wait 2500 ms) and to a bare quota error with zero jitter
(wait 2000 ms at attempt 1). -/
theorem quota_wait_characterization_witness :
    ((gwrAux advisedOutcomes zeroJitter zeroJitter 3 3 1).waits =
      min ((extractRetryDelayMs advisedDelayError).toNat + 500) MAX_RETRY_DELAY_MS ::
        (gwrAux advisedOutcomes zeroJitter zeroJitter 3 2 2).waits) ∧
    ((gwrAux plainQuotaOutcomes zeroJitter zeroJitter 3 3 1).waits =
      (min (1000 * 2 ^ 1) 5000 + zeroJitter 1) ::
        (gwrAux plainQuotaOutcomes zeroJitter zeroJitter 3 2 2).waits) :=
  ⟨((quota_wait_characterization advisedOutcomes zeroJitter zeroJitter 3 2 1
      advisedDelayError rfl rfl rfl).1 (by decide)).1,
   ((quota_wait_characterization plainQuotaOutcomes zeroJitter zeroJitter 3 2 1
      plainQuotaError rfl rfl rfl).2 (by decide) (by decide)).1⟩

/-- C5: `extractArrayFromText` applies its three strategies in the fixed
order fence, brackets, `testCases`-regex — every failure falls through to
the next strategy and the result is null exactly when all three fail; on
the concrete examples, a fenced valid array is returned, a valid array
surrounded only by prose is returned, and text with no parseable array
yields null. -/
theorem extractArrayFromText_strategy_order :
    (∀ t, extractArrayFromText t =
       ((fenceStrategy t).orElse
         (fun _ => (bracketStrategy t).orElse (fun _ => testCasesStrategy t)))) ∧
    (∀ t, extractArrayFromText t = none ↔
       fenceStrategy t = none ∧ bracketStrategy t = none ∧ testCasesStrategy t = none) ∧
    extractArrayFromText fencedExample = some [.num 1, .num 2, .num 3] ∧
    extractArrayFromText proseExample = some [Json.mkObj [("id", .str "TC_001")]] ∧
    extractArrayFromText noArrayExample = none := by
  refine ⟨?_, ?_, rfl, rfl, rfl⟩
  · intro t
    by_cases h : t = ""
    · subst h; rfl
    · simp only [extractArrayFromText, if_neg h]
      cases hf : fenceStrategy t with
      | some xs => simp [Option.orElse]
      | none =>
        cases hb : bracketStrategy t with
        | some xs => simp [Option.orElse]
        | none => simp [Option.orElse]
  · intro t
    by_cases h : t = ""
    · subst h
      exact ⟨fun _ => ⟨rfl, rfl, rfl⟩, fun _ => rfl⟩
    · simp only [extractArrayFromText, if_neg h]
      cases hf : fenceStrategy t with
      | some xs => simp
      | none =>
        cases hb : bracketStrategy t with
        | some xs => simp
        | none => simp

lemma jsonObjInduction (P : JsonObj → Prop) (hnil : P .nil)
    (hcons : ∀ k v rest, P rest → P (.cons k v rest)) : ∀ fs, P fs
  | .nil => hnil
  | .cons k v rest => hcons k v rest (jsonObjInduction P hnil hcons rest)

lemma jsonArrInduction (P : JsonArr → Prop) (hnil : P .nil)
    (hcons : ∀ x rest, P rest → P (.cons x rest)) : ∀ xs, P xs
  | .nil => hnil
  | .cons x rest => hcons x rest (jsonArrInduction P hnil hcons rest)

lemma lookupField_insertField_self (k : String) (v : Json) (fs : JsonObj) :
    lookupField k (insertField k v fs) = some v := by
  induction fs using jsonObjInduction with
  | hnil => simp [insertField, lookupField]
  | hcons k' v' rest ih =>
    by_cases h : k' = k
    · subst h
      simp [insertField, lookupField]
    · simp [insertField, h, lookupField, ih]

lemma lookupField_insertField_ne (k k' : String) (v : Json) (fs : JsonObj) (h : k' ≠ k) :
    lookupField k (insertField k' v fs) = lookupField k fs := by
  induction fs using jsonObjInduction with
  | hnil => simp [insertField, lookupField, h]
  | hcons k₀ v₀ rest ih =>
    by_cases h0 : k₀ = k'
    · subst h0
      simp [insertField, lookupField, h]
    · by_cases hk : k₀ = k
      · subst hk
        simp [insertField, h0, lookupField]
      · simp [insertField, h0, lookupField, hk, ih]

lemma lookupField_not_mem (k : String) (fs : JsonObj) (h : k ∉ keysOf fs) :
    lookupField k fs = none := by
  induction fs using jsonObjInduction with
  | hnil => simp [lookupField]
  | hcons k' v' rest ih =>
    simp only [keysOf, List.mem_cons, not_or] at h
    have hne : k' ≠ k := fun he => h.1 he.symm
    simp [lookupField, hne, ih h.2]

lemma keysOf_insertField (k : String) (v : Json) (fs : JsonObj) :
    keysOf (insertField k v fs) = keysOf fs ∨
    keysOf (insertField k v fs) = keysOf fs ++ [k] := by
  induction fs using jsonObjInduction with
  | hnil => right; simp [insertField, keysOf]
  | hcons k' v' rest ih =>
    by_cases h : k' = k
    · left
      subst h
      simp [insertField, keysOf]
    · cases ih with
      | inl hl => left; simp [insertField, h, keysOf, hl]
      | inr hr => right; simp [insertField, h, keysOf, hr]

lemma nodup_keysOf_insertField (k : String) (v : Json) (fs : JsonObj)
    (h : (keysOf fs).Nodup) :
    (keysOf (insertField k v fs)).Nodup := by
  induction fs using jsonObjInduction with
  | hnil => simp [insertField, keysOf]
  | hcons k' v' rest ih =>
    simp only [keysOf, List.nodup_cons] at h
    by_cases hkk : k' = k
    · subst hkk
      simp only [insertField, if_pos rfl, keysOf, List.nodup_cons]
      exact h
    · simp only [insertField, hkk, if_false, keysOf, List.nodup_cons]
      refine ⟨?_, ih h.2⟩
      cases keysOf_insertField k v rest with
      | inl hl => rw [hl]; exact h.1
      | inr hr =>
        rw [hr]
        simp only [List.mem_append, List.mem_singleton, not_or]
        exact ⟨h.1, fun he => hkk he⟩

lemma lookupField_removeField_self (k : String) (fs : JsonObj)
    (h : (keysOf fs).Nodup) : lookupField k (removeField k fs) = none := by
  induction fs using jsonObjInduction with
  | hnil => simp [removeField, lookupField]
  | hcons k' v' rest ih =>
    simp only [keysOf, List.nodup_cons] at h
    by_cases hkk : k' = k
    · subst hkk
      simp only [removeField, if_pos rfl]
      exact lookupField_not_mem k' rest h.1
    · simp [removeField, hkk, lookupField, ih h.2]

lemma getField_er_outer (fs : JsonObj) (req er : Json) :
    getField "expected_response" (setField (setField (Json.obj fs) "request" req)
      "expected_response" er) = some er := by
  simp only [setField, getField]
  exact lookupField_insertField_self _ _ _

lemma getField_req_outer (fs : JsonObj) (req er : Json) :
    getField "request" (setField (setField (Json.obj fs) "request" req)
      "expected_response" er) = some req := by
  simp only [setField, getField]
  rw [lookupField_insertField_ne _ _ _ _ (by decide)]
  exact lookupField_insertField_self _ _ _

/-- C4 (counterexample): the patching step ignores the spec's
`expected_response.status` — for a POST spec configured with success
status 200, a valid case is patched to expected status 201, not the
claimed overridden 200. -/
theorem patch_override_counterexample :
    statusOf (patchTestCase cSpecPost cValidCase) = some (.num 201) ∧
    claimedSuccessStatus cSpecPost = 200 ∧
    (201 : Rat) ≠ 200 :=
  ⟨rfl, rfl, by norm_num⟩

/-- C4 (amended): after patching a well-shaped case, for a body-bearing
method every `valid` case gets the spec's own body and expected status 201
for POST / 200 otherwise (regardless of the spec's
`expected_response.status`), and every other category gets expected status
400; for non-body methods the request body is removed and the expected
status is 200 for `valid` and 400 otherwise. -/
theorem patch_step_characterization :
    ∀ (v : ValidatedSpec) (tc : Json) (fs : JsonObj),
      tc = Json.obj fs →
      (∀ r, getField "request" tc = some r → jsTruthy r = true →
        ∃ gs, r = Json.obj gs ∧ (keysOf gs).Nodup) →
      (∀ r, getField "expected_response" tc = some r → jsTruthy r = true →
        ∃ gs, r = Json.obj gs) →
      ((methodsWithBody.contains v.method = true →
         (strictEqStr (getField "category" tc) "valid" = true →
            requestBodyOf (patchTestCase v tc) = some v.body ∧
            statusOf (patchTestCase v tc) =
              some (.num (if v.method = "POST" then 201 else 200))) ∧
         (strictEqStr (getField "category" tc) "valid" = false →
            statusOf (patchTestCase v tc) = some (.num 400))) ∧
       (methodsWithBody.contains v.method = false →
         requestBodyOf (patchTestCase v tc) = none ∧
         statusOf (patchTestCase v tc) =
           some (.num (if strictEqStr (getField "category" tc) "valid" then 200
                       else 400)))) := by
  intro v tc fs htc hreq her
  subst htc
  have hreq0 : ∃ gs₀, jsOrObj (getField "request" (Json.obj fs)) = Json.obj gs₀ ∧
      (keysOf gs₀).Nodup := by
    cases hg : getField "request" (Json.obj fs) with
    | none => exact ⟨.nil, rfl, List.nodup_nil⟩
    | some r =>
      by_cases ht : jsTruthy r
      · obtain ⟨gs, hgs, hnd⟩ := hreq r hg ht
        exact ⟨gs, by simp [jsOrObj, ht, hgs, jsTruthy], hnd⟩
      · exact ⟨.nil, by simp [jsOrObj, ht], List.nodup_nil⟩
  have her0 : ∃ es₀, jsOrObj (getField "expected_response" (Json.obj fs)) = Json.obj es₀ := by
    cases hg : getField "expected_response" (Json.obj fs) with
    | none => exact ⟨.nil, rfl⟩
    | some r =>
      by_cases ht : jsTruthy r
      · obtain ⟨gs, hgs⟩ := her r hg ht
        exact ⟨gs, by simp [jsOrObj, ht, hgs, jsTruthy]⟩
      · exact ⟨.nil, by simp [jsOrObj, ht]⟩
  obtain ⟨gs₀, hg0, hnd0⟩ := hreq0
  obtain ⟨es₀, he0⟩ := her0
  have hnd1 : (keysOf (insertField "headers" v.headers (insertField "endpoint"
      (.str v.endpoint) (insertField "method" (.str v.method) gs₀)))).Nodup := by
    apply nodup_keysOf_insertField
    apply nodup_keysOf_insertField
    apply nodup_keysOf_insertField
    exact hnd0
  constructor
  · intro hm
    constructor
    · intro hcat
      constructor
      · simp only [patchTestCase, hm, if_true, hcat, requestBodyOf]
        rw [getField_req_outer, hg0]
        simp only [Option.some_bind, setField, getField]
        exact lookupField_insertField_self _ _ _
      · simp only [patchTestCase, hm, if_true, hcat, statusOf]
        rw [getField_er_outer, he0]
        simp only [Option.some_bind, setField, getField]
        exact lookupField_insertField_self _ _ _
    · intro hcat
      simp only [patchTestCase, hm, if_true, hcat, Bool.false_eq_true, if_false, statusOf]
      rw [getField_er_outer, he0]
      simp only [Option.some_bind, setField, getField]
      exact lookupField_insertField_self _ _ _
  · intro hm
    constructor
    · simp only [patchTestCase, hm, Bool.false_eq_true, if_false, requestBodyOf]
      rw [getField_req_outer, hg0]
      simp only [Option.some_bind, setField, deleteField, getField]
      exact lookupField_removeField_self _ _ hnd1
    · simp only [patchTestCase, hm, Bool.false_eq_true, if_false, statusOf]
      rw [getField_er_outer, he0]
      simp only [Option.some_bind, setField, getField]
      exact lookupField_insertField_self _ _ _

/-- C4 (witness): the characterization applied to the concrete POST spec
and valid case — the body is the spec's own body and the status is 201. -/
theorem patch_step_characterization_witness :
    requestBodyOf (patchTestCase cSpecPost cValidCase) = some cSpecPost.body ∧
    statusOf (patchTestCase cSpecPost cValidCase) =
      some (.num (if cSpecPost.method = "POST" then 201 else 200)) :=
  ((patch_step_characterization cSpecPost cValidCase
      (JsonObj.ofList [("id", .str "TC_001"), ("category", .str "valid"),
        ("description", .str "Valid request with all required fields"),
        ("request", Json.mkObj []), ("expected_response", Json.mkObj [])]) rfl
      (fun _ hr _ => ⟨.nil, (Option.some.inj hr).symm, List.nodup_nil⟩)
      (fun _ hr _ => ⟨.nil, (Option.some.inj hr).symm⟩)).1 rfl).1 rfl

lemma executeTestCaught_status_mem (test : Json) (baseUrl : String) (probe : ProbeOutcome) :
    (executeTestCaught test baseUrl probe).status = passedStr ∨
    (executeTestCaught test baseUrl probe).status = failedStr ∨
    (executeTestCaught test baseUrl probe).status = errorStr := by
  unfold executeTestCaught
  split
  · split
    · right; right; rfl
    · split
      · right; right; rfl
      · right; right; rfl
      · have hb : ∀ b : Bool, (bif b then "PASSED ✅" else "FAILED ❌") = passedStr ∨
            (bif b then "PASSED ✅" else "FAILED ❌") = failedStr := by
          intro b
          cases b
          · right; rfl
          · left; rfl
        rcases hb ((validateResponse _ _ _).passed) with h | h
        · left; exact h
        · right; left; exact h
  · right; right; rfl

lemma executeTestCaught_netError_status (test : Json) (baseUrl : String) (code : Option String)
    (msg : String) (rs : Option (Int × String)) (el : Nat) :
    (executeTestCaught test baseUrl (.netError code msg rs el)).status = errorStr := by
  unfold executeTestCaught
  split
  · rfl
  · rfl

lemma executeTest_ok_of_ne_null (test : Json) (baseUrl : String) (probe : ProbeOutcome)
    (h : test ≠ Json.null) :
    executeTest test baseUrl probe = Except.ok (executeTestCaught test baseUrl probe) := by
  cases test with
  | null => exact absurd rfl h
  | bool b => rfl
  | num q => rfl
  | str s => rfl
  | arr xs => rfl
  | obj fs => rfl

lemma runTestsAux_no_null (baseUrl : String) (probes : Nat → ProbeOutcome) :
    ∀ (tests : List Json) (i : Nat), Json.null ∉ tests →
      runTestsAux baseUrl probes i tests =
        Except.ok ((tests.enumFrom i).map
          (fun q => executeTestCaught q.2 baseUrl (probes q.1))) := by
  intro tests
  induction tests with
  | nil => intro i _; rfl
  | cons t ts ih =>
    intro i h
    have ht : t ≠ Json.null := fun he => h (he ▸ List.mem_cons_self t ts)
    have hts : Json.null ∉ ts := fun hm => h (List.mem_cons_of_mem t hm)
    rw [runTestsAux, executeTest_ok_of_ne_null t baseUrl (probes i) ht, ih (i + 1) hts]
    rfl

lemma runTests_no_null (tests : List Json) (baseUrl : String) (probes : Nat → ProbeOutcome)
    (h : Json.null ∉ tests) :
    runTests tests baseUrl probes =
      Except.ok (tests.enum.map (fun q => executeTestCaught q.2 baseUrl (probes q.1))) :=
  runTestsAux_no_null baseUrl probes tests 0 h

lemma count_three_statuses (l : List ExecResult)
    (h : ∀ r ∈ l, r.status = passedStr ∨ r.status = failedStr ∨ r.status = errorStr) :
    (l.filter (fun r => r.status = passedStr)).length +
    (l.filter (fun r => r.status = failedStr)).length +
    (l.filter (fun r => r.status = errorStr)).length = l.length := by
  induction l with
  | nil => rfl
  | cons r rest ih =>
    have hr := h r (List.mem_cons_self r rest)
    have hrest := ih (fun x hx => h x (List.mem_cons_of_mem r hx))
    rcases hr with h1 | h1 | h1
    · rw [List.filter_cons, List.filter_cons, List.filter_cons, h1]
      rw [if_pos (by decide), if_neg (by decide), if_neg (by decide)]
      simp only [List.length_cons]
      omega
    · rw [List.filter_cons, List.filter_cons, List.filter_cons, h1]
      rw [if_neg (by decide), if_pos (by decide), if_neg (by decide)]
      simp only [List.length_cons]
      omega
    · rw [List.filter_cons, List.filter_cons, List.filter_cons, h1]
      rw [if_neg (by decide), if_neg (by decide), if_pos (by decide)]
      simp only [List.length_cons]
      omega

/-- C3 (counterexample): the claim's universal per-test isolation fails
as stated — the non-empty batch `[null]` passes the route's array check,
but `executeTest`'s catch block itself throws reading `test.id` on the
null entry (server.js line 717), so `Promise.all` rejects and the route
answers 500 with no results array at all, instead of one result per input
test. -/
theorem run_tests_batch_abort_counterexample :
    runTests [Json.null] "http://localhost:3000" sampleProbes =
      Except.error "Cannot read properties of null (reading \x27id\x27)" ∧
    ([Json.null] : List Json) ≠ [] :=
  ⟨rfl, List.cons_ne_nil _ _⟩

/-- C3 (amended): a batch run in which no test entry is null yields a
results array with exactly one result per input test (in input order);
every result's status is PASSED, FAILED or ERROR, the aggregated counts
satisfy passed + failed + errors = total, a transport-level failure on
one test yields an ERROR result for that test, and each test's result
depends only on its own test and probe outcome (so one test's transport
fault never aborts the batch or affects any other test).  A null test
entry instead makes the catch block of `executeTest` itself throw,
rejecting the whole batch with no results array. -/
theorem run_tests_results_invariants :
    ∀ (tests : List Json) (baseUrl : String) (probes : Nat → ProbeOutcome),
      Json.null ∉ tests →
      ∃ rs, runTests tests baseUrl probes = Except.ok rs ∧
        rs.length = tests.length ∧
        (∀ res ∈ rs,
           res.status = passedStr ∨ res.status = failedStr ∨ res.status = errorStr) ∧
        ((runStats rs).passed + (runStats rs).failed + (runStats rs).errors =
          (runStats rs).total) ∧
        (∀ i code msg rsp el, i < tests.length → probes i = .netError code msg rsp el →
           (rs[i]?).map ExecResult.status = some errorStr) ∧
        (∀ (probes' : Nat → ProbeOutcome) i, probes i = probes' i →
           ∀ rs', runTests tests baseUrl probes' = Except.ok rs' →
             rs[i]? = rs'[i]?) := by
  intro tests baseUrl probes hnull
  refine ⟨tests.enum.map (fun q => executeTestCaught q.2 baseUrl (probes q.1)),
    runTests_no_null tests baseUrl probes hnull, ?_⟩
  have hmem : ∀ res ∈ tests.enum.map (fun q => executeTestCaught q.2 baseUrl (probes q.1)),
      res.status = passedStr ∨ res.status = failedStr ∨ res.status = errorStr := by
    intro res hres
    obtain ⟨⟨i, t⟩, _, rfl⟩ := List.mem_map.1 hres
    exact executeTestCaught_status_mem t baseUrl (probes i)
  refine ⟨?_, hmem, ?_, ?_, ?_⟩
  · simp [List.length_map, List.enum_length]
  · exact count_three_statuses _ hmem
  · intro i code msg rsp el hi hp
    rw [List.getElem?_map, List.getElem?_enum, List.getElem?_eq_getElem hi]
    simp only [Option.map_some']
    rw [hp]
    rw [executeTestCaught_netError_status]
  · intro probes' i hpp rs' hrs'
    rw [runTests_no_null tests baseUrl probes' hnull] at hrs'
    obtain rfl := Except.ok.inj hrs'
    rw [List.getElem?_map, List.getElem?_map, List.getElem?_enum]
    cases tests[i]? with
    | none => rfl
    | some t => simp only [Option.map_some']; rw [hpp]

/-- C3 (witness): a concrete two-test run with no null entry — one
resolved response, one connection-refused transport failure — yields a
results array with two results and an ERROR status at the failing
index. -/
theorem run_tests_results_invariants_witness :
    ∃ rs, runTests [cValidCase, Json.num 7] "http://localhost:3000" sampleProbes =
        Except.ok rs ∧
      rs.length = 2 ∧ (rs[1]?).map ExecResult.status = some errorStr := by
  have hnn : Json.null ∉ ([cValidCase, Json.num 7] : List Json) := by
    intro hm
    rcases List.mem_cons.1 hm with he | hm
    · exact Json.noConfusion he
    · rcases List.mem_cons.1 hm with he | hm
      · exact Json.noConfusion he
      · exact List.not_mem_nil _ hm
  obtain ⟨rs, hok, hlen, _, _, hnet, _⟩ :=
    run_tests_results_invariants [cValidCase, Json.num 7] "http://localhost:3000"
      sampleProbes hnn
  exact ⟨rs, hok, hlen, hnet 1 (some "ECONNREFUSED") "connect ECONNREFUSED 127.0.0.1:3000"
    none 3 (by decide) rfl⟩

lemma cacheGet_cacheSet_same (tSet tGet : Nat) (cache : List (String × CacheEntry))
    (k : String) (resp : GenResponse) (h : tGet < tSet + ttlMs) :
    cacheGet tGet (cacheSet tSet cache k resp) k = some resp := by
  simp [cacheGet, cacheSet, cacheLookup, h]

lemma cacheGet_cacheSet_expired (tSet tGet : Nat) (cache : List (String × CacheEntry))
    (k : String) (resp : GenResponse) (h : tSet + ttlMs ≤ tGet) :
    cacheGet tGet (cacheSet tSet cache k resp) k = none := by
  simp [cacheGet, cacheSet, cacheLookup]
  omega
lemma handleGenerate_miss (gen : ValidatedSpec → List Json) (t : Nat)
    (cache : List (String × CacheEntry)) (raw : RawSpec) (v : ValidatedSpec)
    (hv : validateSpec raw = .ok v)
    (hmiss : cacheGet t cache (cacheKey v) = none) :
    handleGenerateTests gen t cache raw =
      { out := .ok (builtResponse gen v) false,
        cache := cacheSet t cache (cacheKey v) (builtResponse gen v),
        genCalled := true } := by
  rw [handleGenerateTests, hv]
  simp only [hmiss]

lemma handleGenerate_hit (gen : ValidatedSpec → List Json) (t : Nat)
    (cache : List (String × CacheEntry)) (raw : RawSpec) (v : ValidatedSpec)
    (resp : GenResponse) (hv : validateSpec raw = .ok v)
    (hhit : cacheGet t cache (cacheKey v) = some resp) :
    handleGenerateTests gen t cache raw =
      { out := .ok resp true, cache := cache, genCalled := false } := by
  rw [handleGenerateTests, hv]
  simp only [hhit]

lemma second_request_hits_cache (gen gen' : ValidatedSpec → List Json) (t₁ t₂ : Nat)
    (cache₀ : List (String × CacheEntry)) (raw₁ raw₂ : RawSpec)
    (v v₂ : ValidatedSpec) (resp : GenResponse)
    (hv1 : validateSpec raw₁ = .ok v) (hv2 : validateSpec raw₂ = .ok v₂)
    (hkey : cacheKey v₂ = cacheKey v)
    (hmiss : cacheGet t₁ cache₀ (cacheKey v) = none)
    (hout : (handleGenerateTests gen t₁ cache₀ raw₁).out = .ok resp false)
    (ht : t₂ < t₁ + ttlMs) :
    handleGenerateTests gen' t₂ (handleGenerateTests gen t₁ cache₀ raw₁).cache raw₂ =
      { out := .ok resp true,
        cache := (handleGenerateTests gen t₁ cache₀ raw₁).cache,
        genCalled := false } := by
  have h1 := handleGenerate_miss gen t₁ cache₀ raw₁ v hv1 hmiss
  rw [h1] at hout
  have hresp : builtResponse gen v = resp := by
    cases hout
    rfl
  rw [h1]
  exact handleGenerate_hit gen' t₂ _ raw₂ v₂ resp hv2
    (by rw [hkey, ← hresp]; exact cacheGet_cacheSet_same t₁ t₂ cache₀ (cacheKey v) _ ht)

/-- C8: when two generation requests validate to the same canonical
fingerprint and the first was a cache miss that produced a response, a
second request within the 1-hour TTL is served that exact response with a
`cached: true` marker, without invoking generation and without touching
the cache; after TTL expiry the lookup misses and generation runs
again. -/
theorem cache_hit_within_ttl :
    ∀ (gen gen' : ValidatedSpec → List Json) (t₁ t₂ t₃ : Nat)
      (cache₀ : List (String × CacheEntry)) (raw₁ raw₂ : RawSpec)
      (v v₂ : ValidatedSpec) (resp : GenResponse),
      validateSpec raw₁ = .ok v → validateSpec raw₂ = .ok v₂ →
      cacheKey v₂ = cacheKey v →
      cacheGet t₁ cache₀ (cacheKey v) = none →
      (handleGenerateTests gen t₁ cache₀ raw₁).out = .ok resp false →
      (t₂ < t₁ + ttlMs →
        handleGenerateTests gen' t₂ (handleGenerateTests gen t₁ cache₀ raw₁).cache raw₂ =
          { out := .ok resp true,
            cache := (handleGenerateTests gen t₁ cache₀ raw₁).cache,
            genCalled := false }) ∧
      (t₁ + ttlMs ≤ t₃ →
        (handleGenerateTests gen' t₃ (handleGenerateTests gen t₁ cache₀ raw₁).cache
            raw₂).genCalled = true) := by
  intro gen gen' t₁ t₂ t₃ cache₀ raw₁ raw₂ v v₂ resp hv1 hv2 hkey hmiss hout
  constructor
  · intro ht
    exact second_request_hits_cache gen gen' t₁ t₂ cache₀ raw₁ raw₂ v v₂ resp
      hv1 hv2 hkey hmiss hout ht
  · intro ht
    have h1 := handleGenerate_miss gen t₁ cache₀ raw₁ v hv1 hmiss
    rw [h1]
    rw [handleGenerate_miss gen' t₃ _ raw₂ v₂ hv2
      (by rw [hkey]; exact cacheGet_cacheSet_expired t₁ t₃ cache₀ (cacheKey v) _ ht)]

/-- C8 (witness): a concrete second request one millisecond later is served
from cache without generation; at exactly the TTL the entry has expired
and generation runs again. -/
theorem cache_hit_within_ttl_witness :
    (handleGenerateTests genZero 1 (handleGenerateTests genOne 0 [] rawSpecA).cache
        rawSpecA =
      { out := .ok respA true,
        cache := (handleGenerateTests genOne 0 [] rawSpecA).cache,
        genCalled := false }) ∧
    (handleGenerateTests genZero ttlMs (handleGenerateTests genOne 0 [] rawSpecA).cache
        rawSpecA).genCalled = true :=
  ⟨(cache_hit_within_ttl genOne genZero 0 1 ttlMs [] rawSpecA rawSpecA
      specAValidated specAValidated respA rfl rfl rfl rfl rfl).1 (by decide),
   (cache_hit_within_ttl genOne genZero 0 1 ttlMs [] rawSpecA rawSpecA
      specAValidated specAValidated respA rfl rfl rfl rfl rfl).2 (by decide)⟩

lemma validateEndpoint_congr (e₁ e₂ : String) (h : trimStr e₁ = trimStr e₂)
    (t : String) (h1 : validateEndpoint e₁ = .ok t) : validateEndpoint e₂ = .ok t := by
  rw [validateEndpoint] at h1 ⊢
  by_cases he1 : e₁ = ""
  · rw [if_pos he1] at h1
    exact (Except.noConfusion h1)
  · rw [if_neg he1] at h1
    have he2 : e₂ ≠ "" := by
      intro h2
      rw [h2] at h
      rw [show trimStr "" = "" from rfl] at h
      rw [h] at h1
      rw [if_pos (by decide)] at h1
      exact (Except.noConfusion h1)
    rw [if_neg he2, ← h]
    exact h1

lemma validateMethod_congr (m₁ m₂ : String) (h : upperStr m₁ = upperStr m₂) :
    validateMethod m₂ = validateMethod m₁ := by
  rw [validateMethod, validateMethod, h]

lemma validateSpec_congr (raw₁ raw₂ : RawSpec) (v : ValidatedSpec)
    (hm : upperStr raw₁.method = upperStr raw₂.method)
    (he : trimStr raw₁.endpoint = trimStr raw₂.endpoint)
    (hh : raw₁.headers = raw₂.headers) (hb : raw₁.body = raw₂.body)
    (hx : raw₁.expected_response = raw₂.expected_response)
    (hv : validateSpec raw₁ = .ok v) : validateSpec raw₂ = .ok v := by
  rw [validateSpec] at hv ⊢
  cases h1 : validateEndpoint raw₁.endpoint with
  | error m =>
    rw [h1] at hv
    exact (Except.noConfusion hv)
  | ok ep =>
    rw [h1] at hv
    rw [validateEndpoint_congr raw₁.endpoint raw₂.endpoint he ep h1]
    cases h2 : validateMethod raw₁.method with
    | error m =>
      rw [h2] at hv
      exact (Except.noConfusion hv)
    | ok me =>
      rw [h2] at hv
      rw [validateMethod_congr raw₁.method raw₂.method hm, h2]
      rw [← hh, ← hb, ← hx]
      exact hv

/-- C10: validation uppercases the method and trims the endpoint before the
canonical fingerprint is serialized, so two generation requests that
differ only in method letter-case or in surrounding endpoint whitespace
validate to the same spec and share one cache entry — the second, within
the TTL of the first's entry, is served from cache with `cached: true` and
no generation call. -/
theorem normalized_fingerprint_cache_sharing :
    ∀ (gen gen' : ValidatedSpec → List Json) (t₁ t₂ : Nat)
      (cache₀ : List (String × CacheEntry)) (raw₁ raw₂ : RawSpec)
      (v : ValidatedSpec) (resp : GenResponse),
      upperStr raw₁.method = upperStr raw₂.method →
      trimStr raw₁.endpoint = trimStr raw₂.endpoint →
      raw₁.headers = raw₂.headers → raw₁.body = raw₂.body →
      raw₁.expected_response = raw₂.expected_response →
      validateSpec raw₁ = .ok v →
      validateSpec raw₂ = .ok v ∧
      (cacheGet t₁ cache₀ (cacheKey v) = none →
       (handleGenerateTests gen t₁ cache₀ raw₁).out = .ok resp false →
       t₂ < t₁ + ttlMs →
       handleGenerateTests gen' t₂ (handleGenerateTests gen t₁ cache₀ raw₁).cache raw₂ =
         { out := .ok resp true,
           cache := (handleGenerateTests gen t₁ cache₀ raw₁).cache,
           genCalled := false }) := by
  intro gen gen' t₁ t₂ cache₀ raw₁ raw₂ v resp hm he hh hb hx hv1
  have hv2 : validateSpec raw₂ = .ok v := validateSpec_congr raw₁ raw₂ v hm he hh hb hx hv1
  refine ⟨hv2, ?_⟩
  intro hmiss hout ht
  exact second_request_hits_cache gen gen' t₁ t₂ cache₀ raw₁ raw₂ v v resp
    hv1 hv2 rfl hmiss hout ht

/-- C10 (witness): `rawSpecA` (lowercase method) and `rawSpecB` (uppercase
method, padded endpoint) share one cache entry; the second request is a
cache hit with no generation call. -/
theorem normalized_fingerprint_cache_sharing_witness :
    validateSpec rawSpecB = .ok specAValidated ∧
    handleGenerateTests genZero 1 (handleGenerateTests genOne 0 [] rawSpecA).cache
        rawSpecB =
      { out := .ok respA true,
        cache := (handleGenerateTests genOne 0 [] rawSpecA).cache,
        genCalled := false } :=
  ⟨(normalized_fingerprint_cache_sharing genOne genZero 0 1 [] rawSpecA rawSpecB
      specAValidated respA rfl rfl rfl rfl rfl rfl).1,
   (normalized_fingerprint_cache_sharing genOne genZero 0 1 [] rawSpecA rawSpecB
      specAValidated respA rfl rfl rfl rfl rfl rfl).2 rfl rfl (by decide)⟩

lemma limiter_reachable_active_le (limit n : Nat) :
    ∀ s, LimiterReachable limit n s → s.active ≤ limit := by
  intro s h
  induction h with
  | refl => exact Nat.zero_le _
  | tail hsteps hstep ih =>
    cases hstep with
    | start hlt => exact hlt
    | finish =>
      simp only [LimiterState.mk.injEq] at *
      omega

/-- C9: under the limiter semantics, starting from `n` queued tests and no
active probe, every reachable state has at most `limit` probes in flight,
where the limit is the request's integer `concurrency` parameter when
truthy and the configured default (8) otherwise — tests beyond the bound
can only start once a slot frees. -/
theorem concurrency_bound_invariant :
    ∀ (c : Json) (n : Nat) (s : LimiterState),
      LimiterReachable ((effectiveConcurrency c defaultConcurrency).toNat) n s →
      s.active ≤ (effectiveConcurrency c defaultConcurrency).toNat := by
  intro c n s h
  exact limiter_reachable_active_le _ n s h

/-- C9 (witness): with `concurrency = 5` and 20 queued tests, the state
after one start step is reachable and respects the bound. -/
theorem concurrency_bound_invariant_witness :
    (LimiterState.mk 1 19).active ≤
      ((effectiveConcurrency (.num 5) defaultConcurrency).toNat) :=
  concurrency_bound_invariant (.num 5) 20 ⟨1, 19⟩
    (Relation.ReflTransGen.single (LimiterStep.start (by decide)))
